import Mathlib

/-!
Verification development for the `kodning` scraping scripts.

Each Python helper that the specification talks about is shallowly embedded
as an executable Lean function.  Machine floats are modelled as exact
rationals (`ℚ`); Python `None` results become `Option`; regular-expression
searches are embedded as explicit left-to-right matchers with the same
backtracking behaviour as CPython's `re` on the character classes involved.
-/

namespace Kodning

/-! ## Character classes

`isPySpace` models Python's `\s` on the characters that can actually occur in
the scraped cell texts (ASCII whitespace plus NBSP/narrow NBSP, which Python's
Unicode `\s` also matches).  `isAsciiLetter` models `[A-Z]` under
`re.IGNORECASE` for ASCII input. -/

def isPySpace (c : Char) : Bool :=
  c = ' ' || c = '\t' || c = '\n' || c = '\r' || c = '\x0b' || c = '\x0c' ||
  c = ' ' || c = ' '

def isAsciiLetter (c : Char) : Bool :=
  ('A' ≤ c && c ≤ 'Z') || ('a' ≤ c && c ≤ 'z')

/-- Python's `\w` (word character) for the ASCII texts involved. -/
def isWordChar (c : Char) : Bool :=
  c.isAlphanum || c = '_'

def isWordOpt : Option Char → Bool
  | none => false
  | some c => isWordChar c

def digitsToNat (cs : List Char) : Nat :=
  cs.foldl (fun acc c => 10 * acc + (c.toNat - 48)) 0

/-! ## `to_float` (src/scripts/adtraction_epc_all.py)

`to_float` strips NBSP / narrow-NBSP / spaces, turns `,` into `.`, and feeds
the result to Python's `float`.  The strings reaching it (regex group `val`)
always have the shape `[-+]?digits[.digits]`, on which `float` is exact
decimal parsing; we embed that parser. -/

def stripSpacesCommaDot (s : String) : List Char :=
  (s.data.filter (fun c => !(c = ' ' || c = ' ' || c = ' '))).map
    (fun c => if c = ',' then '.' else c)

def parseDecimal (cs : List Char) : Option ℚ :=
  let (sign, cs) : ℚ × List Char :=
    match cs with
    | '+' :: t => (1, t)
    | '-' :: t => (-1, t)
    | t => (1, t)
  let ip := cs.takeWhile Char.isDigit
  let rest := cs.drop ip.length
  match rest with
  | [] => if ip.isEmpty then none else some (sign * (digitsToNat ip : ℚ))
  | '.' :: fr =>
      let fd := fr.takeWhile Char.isDigit
      if !(fr.drop fd.length).isEmpty then none
      else if ip.isEmpty && fd.isEmpty then none
      else some (sign * ((digitsToNat ip : ℚ) + (digitsToNat fd : ℚ) / 10 ^ fd.length))
  | _ => none

def to_float (s : String) : Option ℚ :=
  parseDecimal (stripSpacesCommaDot s)

/-! ## `CURRENCY_REGEX` search

`(?P<val>[-+]?\d+(?:[.,]\d+)?)\s*(?P<cur>[A-Z]{3}|kr|£|€|\$|₽|₺)` with
`re.IGNORECASE`.  Greedy `\d+`, the optional decimal group and greedy `\s*`
never need backtracking against the `cur` alternatives (none of which can
start with a digit, `.`/`,` or whitespace), so maximal munch is faithful.
`re.search` takes the leftmost matching start position. -/

/-- Match the `cur` alternatives at the head of `cs`; returns the matched text
and the rest.  Alternation order: `[A-Z]{3}`, `kr`, then the symbols. -/
def matchCur (cs : List Char) : Option (String × List Char) :=
  match cs with
  | a :: b :: c :: rest =>
      if isAsciiLetter a && isAsciiLetter b && isAsciiLetter c then
        some (⟨[a, b, c]⟩, rest)
      else
        match a :: b :: c :: rest with
        | a :: b :: rest' =>
            if (a = 'k' || a = 'K') && (b = 'r' || b = 'R') then
              some (⟨[a, b]⟩, rest')
            else if a = '£' || a = '€' || a = '$' || a = '₽' || a = '₺' then
              some (⟨[a]⟩, b :: rest')
            else none
        | _ => none
  | a :: b :: rest' =>
      if (a = 'k' || a = 'K') && (b = 'r' || b = 'R') then
        some (⟨[a, b]⟩, rest')
      else if a = '£' || a = '€' || a = '$' || a = '₽' || a = '₺' then
        some (⟨[a]⟩, b :: rest')
      else none
  | [a] =>
      if a = '£' || a = '€' || a = '$' || a = '₽' || a = '₺' then
        some (⟨[a]⟩, [])
      else none
  | [] => none

/-- Try to match the whole `CURRENCY_REGEX` starting exactly at `cs`,
returning `(val text, cur text)`. -/
def matchCurrencyAt (cs : List Char) : Option (String × String) :=
  let (sign, cs') : List Char × List Char :=
    match cs with
    | '+' :: t => (['+'], t)
    | '-' :: t => (['-'], t)
    | t => ([], t)
  let ds := cs'.takeWhile Char.isDigit
  if ds.isEmpty then none
  else
    let rest := cs'.drop ds.length
    let (dec, rest) : List Char × List Char :=
      match rest with
      | sep :: t =>
          if sep = '.' || sep = ',' then
            let fd := t.takeWhile Char.isDigit
            if fd.isEmpty then ([], sep :: t)
            else (sep :: fd, t.drop fd.length)
          else ([], sep :: t)
      | [] => ([], [])
    let rest := rest.dropWhile isPySpace
    match matchCur rest with
    | none => none
    | some (cur, _) => some (⟨sign ++ ds ++ dec⟩, cur)

def searchCurrency : List Char → Option (String × String)
  | [] => none
  | c :: cs =>
      match matchCurrencyAt (c :: cs) with
      | some r => some r
      | none => searchCurrency cs

/-! ## `NO_DATA_RE` search

`\b(inga\s*data|ingen\s*data|no\s*data)\b` with `re.IGNORECASE`. -/

def lowerEq (a b : Char) : Bool := a.toLower = b.toLower

def startsWithCI : List Char → List Char → Bool
  | [], _ => true
  | _ :: _, [] => false
  | n :: ns, h :: hs => lowerEq n h && startsWithCI ns hs

/-- Match `word1\s*word2` at the head of `cs` (case-insensitively) and return
the remainder after `word2`.  `\s*` is greedy and needs no backtracking
because `word2` starts with a non-space character. -/
def matchPhrase (w1 w2 : List Char) (cs : List Char) : Option (List Char) :=
  if startsWithCI w1 cs then
    let rest := (cs.drop w1.length).dropWhile isPySpace
    if startsWithCI w2 rest then some (rest.drop w2.length) else none
  else none

/-- Match one of the three no-data alternatives at the head, with the trailing
`\b` (the phrase ends in the letter `a`, so the next char must be non-word). -/
def noDataAt (cs : List Char) : Bool :=
  [("inga".data, "data".data), ("ingen".data, "data".data), ("no".data, "data".data)].any
    fun (w1, w2) =>
      match matchPhrase w1 w2 cs with
      | some rest => !isWordOpt rest.head?
      | none => false

/-- `NO_DATA_RE.search` as a Boolean: scan positions left to right, tracking
the previous character for the leading `\b` (all alternatives start with a
letter, so the boundary holds iff the previous char is absent or non-word). -/
def noDataSearch : Option Char → List Char → Bool
  | _, [] => false
  | prev, c :: cs =>
      (!isWordOpt prev && noDataAt (c :: cs)) || noDataSearch (some c) cs

def noDataFound (s : String) : Bool := noDataSearch none s.data

/-! ## `parse_epc_cell` (src/scripts/adtraction_epc_all.py lines 93–104) -/

def replaceNbsp (s : String) : List Char :=
  s.data.map (fun c => if c = ' ' || c = ' ' then ' ' else c)

def parse_epc_cell (text : String) : Option (ℚ × String) :=
  if text = "" then none
  else if noDataFound text then none
  else
    match searchCurrency (replaceNbsp text) with
    | none => none
    | some (valStr, curStr) =>
        match to_float valStr with
        | none => none
        | some v => some (v, curStr)

/-- The caller's treatment (`scrape_category_country`): keep only cells whose
parse succeeded. -/
def collectEpc (cells : List String) : List (ℚ × String) :=
  cells.filterMap parse_epc_cell

/-! ## `parse_price` (src/scripts/benuta_aov.py lines 45–54)

`PRICE_RE = (\d[\d\s ]*)(?:[.,]\d{2})?\s*kr`, `re.IGNORECASE`.  Here the
greedy run in group 1 genuinely backtracks (it can swallow characters the
decimal/`kr` part needs), so we try the run length from longest to shortest,
exactly as CPython does. -/

def krAt (cs : List Char) : Bool :=
  match cs with
  | a :: b :: _ => (a = 'k' || a = 'K') && (b = 'r' || b = 'R')
  | _ => false

/-- The part of `PRICE_RE` after group 1: optional `[.,]\d{2}`, `\s*`, `kr`.
The decimal branch is tried first (greedy), then skipped. -/
def priceTail (after : List Char) : Bool :=
  (match after with
   | sep :: d1 :: d2 :: rest =>
       (sep = '.' || sep = ',') && d1.isDigit && d2.isDigit &&
         krAt (rest.dropWhile isPySpace)
   | _ => false)
  || krAt (after.dropWhile isPySpace)

/-- Backtrack over the length of the group-1 run, longest first. -/
def priceTryK (d : Char) (run rest : List Char) : Nat → Option (List Char)
  | 0 => if priceTail rest then some [d] else none
  | k + 1 =>
      if priceTail (rest.drop (k + 1)) then some (d :: run.take (k + 1))
      else priceTryK d run rest k

def matchPriceAt (cs : List Char) : Option (List Char) :=
  match cs with
  | d :: rest =>
      if d.isDigit then
        let run := rest.takeWhile (fun c => c.isDigit || isPySpace c)
        priceTryK d run rest run.length
      else none
  | [] => none

def searchPrice : List Char → Option (List Char)
  | [] => none
  | c :: cs =>
      match matchPriceAt (c :: cs) with
      | some g => some g
      | none => searchPrice cs

def parse_price (text : String) : Option Nat :=
  if text = "" then none
  else
    match searchPrice text.data with
    | some g1 =>
        let ds := g1.filter (fun c => !(c = ' ' || c = ' '))
        if !ds.isEmpty && ds.all Char.isDigit then some (digitsToNat ds) else none
    | none =>
        let ds := text.data.filter Char.isDigit
        if !ds.isEmpty then some (digitsToNat ds) else none

/-- The caller's treatment (`extract_lock_prices`): `if p and 50 <= p <= 200_000`. -/
def extract_lock_prices (raw : List String) : List Nat :=
  raw.filterMap fun t =>
    match parse_price t with
    | some p => if p ≠ 0 && 50 ≤ p && p ≤ 200000 then some p else none
    | none => none

/-! ## Currency normalization to SEK -/

/-- Python's `x or default` on an optional string ( `None` and `""` are falsy). -/
def pyOr (x : Option String) (dflt : String) : String :=
  match x with
  | none => dflt
  | some s => if s = "" then dflt else s

/-- Python `str.upper` / `str.lower` (ASCII case mapping suffices for the
currency tokens involved). -/
def pyUpper (s : String) : String := ⟨s.data.map Char.toUpper⟩

def pyLower (s : String) : String := ⟨s.data.map Char.toLower⟩

/-- `symbol_map.get(cur, cur)` with the fixed five-symbol table. -/
def symbolMapGet (cur : String) : String :=
  if cur = "€" then "EUR"
  else if cur = "$" then "USD"
  else if cur = "£" then "GBP"
  else if cur = "₽" then "RUB"
  else if cur = "₺" then "TRY"
  else cur

/-- `KR_BY_CC = {"SE": "SEK", "DK": "DKK", "NO": "NOK"}` lookup. -/
def krByCC (cc : String) : Option String :=
  if cc = "SE" then some "SEK"
  else if cc = "DK" then some "DKK"
  else if cc = "NO" then some "NOK"
  else none

/-- `to_sek` from src/scripts/adtraction_epc_all.py (lines 77–91): rates are
CUR per SEK; `if not rate` treats a missing or zero rate as unavailable. -/
def to_sek (amount : ℚ) (currency : String) (rates : List (String × ℚ))
    (cc : Option String) : Option ℚ :=
  let cur := pyUpper currency
  let cur := symbolMapGet cur
  let cur := if pyLower cur = "kr" then (krByCC (pyUpper (pyOr cc "SE"))).getD "SEK" else cur
  if cur = "SEK" then some amount
  else
    match rates.lookup cur with
    | none => none
    | some r => if r = 0 then none else some (amount / r)

/-- `to_sek` from src/adtraction_epc.py (lines 66–75): no country context; its
symbol map additionally sends the literal `"KR"` to `"SEK"`. -/
def to_sek_epc (amount : ℚ) (currency : String) (rates : List (String × ℚ)) : Option ℚ :=
  let cur := pyUpper currency
  let cur := if cur = "KR" then "SEK" else symbolMapGet cur
  if cur = "SEK" then some amount
  else
    match rates.lookup cur with
    | none => none
    | some r => if r = 0 then none else some (amount / r)

/-- `normalize_currency` from src/scripts/adtraction_epc_finance.py
(lines 73–79). -/
def normalize_currency (cur : String) (cc : Option String) : String :=
  let c := pyUpper (pyOr (some cur) "")
  let c := symbolMapGet c
  if pyLower c = "kr" then (krByCC (pyUpper (pyOr cc "SE"))).getD "SEK" else c

/-! ## The `main` aggregation of src/scripts/adtraction_epc_all.py
(lines 296–328): local plausibility filter, local mean/count, and the SEK
total built from the filtered observations that convert. -/

/-- The per-observation plausibility check (lines 299–305): EUR band
`[0.01, 20]`, other currencies `[0.1, 200]`. -/
def localAccept (v : ℚ) (cur : String) : Bool :=
  if pyUpper cur = "EUR" then decide ((1/100 : ℚ) ≤ v) && decide (v ≤ 20)
  else decide ((1/10 : ℚ) ≤ v) && decide (v ≤ 200)

def localFilter (raw : List (ℚ × String)) : List (ℚ × String) :=
  raw.filter fun p => localAccept p.1 p.2

/-- Local average and count (`mean`, `len`); `none` models the `"-"` cells
written when everything was filtered out. -/
def localStats (raw : List (ℚ × String)) : Option (ℚ × Nat) :=
  let f := localFilter raw
  if f.isEmpty then none
  else some (((f.map Prod.fst).sum) / f.length, f.length)

/-- The SEK values this (country, category) run contributes to the total
(lines 323–328): only filtered observations whose conversion succeeds. -/
def totalContrib (raw : List (ℚ × String)) (rates : List (String × ℚ))
    (cc : Option String) : List ℚ :=
  (localFilter raw).filterMap fun p => to_sek p.1 p.2 rates cc

/-- The final Total / Total-# cells (lines 332–339). -/
def totalStats (vals : List ℚ) : Option (ℚ × Nat) :=
  if vals.isEmpty then none else some (vals.sum / vals.length, vals.length)

/-! ## Ranked-list matcher (src/scripts/fractal_scape.py)

`PATTERNS["dark"] = \bfractal(?:\s+design)?\b.*\bscape\b.*\b(dark|black)\b`
 (`re.I | re.S`), same for `light` with `(light|white)`.  With `re.S` the
`.*` pieces are unconstrained, so a search succeeds iff the three word-bounded
pieces occur left to right; word boundaries are checked against the actual
neighbouring characters, which we thread through as `prev`. -/

/-- Substring test (Python `needle in hay`, case-sensitive). -/
def containsSub (hay needle : List Char) : Bool :=
  match hay with
  | [] => needle.isEmpty
  | _ :: t => needle.isPrefixOf hay || containsSub t needle

/-- All suffixes of `cs`, each with the character immediately preceding it. -/
def tailsWithPrev (prev : Option Char) : List Char → List (Option Char × List Char)
  | [] => [(prev, [])]
  | c :: cs => (prev, c :: cs) :: tailsWithPrev (some c) cs

/-- `\b(dark|black)\b` (resp. the given alternatives) somewhere in `(prev, cs)`. -/
def colorAfter (alts : List (List Char)) (prev : Option Char) (cs : List Char) : Bool :=
  (tailsWithPrev prev cs).any fun (p, s) =>
    !isWordOpt p && alts.any fun w =>
      startsWithCI w s && !isWordOpt ((s.drop w.length).head?)

/-- `.*\bscape\b.*\b(alt₁|alt₂)\b` from `(prev, cs)`. -/
def scapeThen (alts : List (List Char)) (prev : Option Char) (cs : List Char) : Bool :=
  (tailsWithPrev prev cs).any fun (p, s) =>
    !isWordOpt p && startsWithCI "scape".data s &&
      (!isWordOpt ((s.drop 5).head?) && colorAfter alts (some 'e') (s.drop 5))

/-- `\bfractal(?:\s+design)?\b…` starting exactly at `(prev, cs)`. -/
def fractalAt (alts : List (List Char)) (prev : Option Char) (cs : List Char) : Bool :=
  !isWordOpt prev && startsWithCI "fractal".data cs &&
    (let rest := cs.drop 7
     let withDesign :=
       let sp := rest.takeWhile isPySpace
       !sp.isEmpty && startsWithCI "design".data (rest.drop sp.length) &&
         (let rest2 := rest.drop (sp.length + 6)
          !isWordOpt rest2.head? && scapeThen alts (some 'n') rest2)
     let plain := !isWordOpt rest.head? && scapeThen alts (some 'l') rest
     withDesign || plain)

/-- `PATTERNS[name].search(txt)` as a Boolean. -/
def patternSearch (alts : List (List Char)) (cs : List Char) : Bool :=
  (tailsWithPrev none cs).any fun (p, s) => fractalAt alts p s

def darkSearch (cs : List Char) : Bool :=
  patternSearch ["dark".data, "black".data] cs

def lightSearch (cs : List Char) : Bool :=
  patternSearch ["light".data, "white".data] cs

/-- `looks_sponsored_text`: case-insensitive substring check on the item's
full text. -/
def looksSponsored (txt : String) : Bool :=
  let t := txt.data.map Char.toLower
  containsSub t "sponsored".data || containsSub t "advertisement".data

/-- `collect_items_on_page`: drop sponsored tiles, then store
`(title + " " + fulltext)` with `®`/`™` blanked and lower-cased.  Titles are
not separately extracted in the model (the pattern text is the full text), so
`title = ""` and the stored text is `" " + fulltext`. -/
def collectItems (texts : List String) : List (List Char) :=
  texts.filterMap fun ft =>
    if looksSponsored ft then none
    else some ((' ' :: ft.data.map (fun c => if c = '®' || c = '™' then ' ' else c)).map
      Char.toLower)

structure Ranks where
  dark : Option Nat
  light : Option Nat
deriving DecidableEq, Repr

/-- One item of the inner loop of `find_global_ranks` (lines 93–100):
the position was already incremented to `pos`. -/
def stepItem (r : Ranks) (pos : Nat) (txt : List Char) : Ranks :=
  if containsSub txt "fractal".data && containsSub txt "scape".data then
    let r := if r.dark = none && darkSearch txt then { r with dark := some pos } else r
    let r := if r.light = none && lightSearch txt then { r with light := some pos } else r
    r
  else r

/-- The item loop; the `Bool` records whether the early `return ranks`
(`all(v is not None …)`) fired. -/
def runItems (r : Ranks) (pos : Nat) : List (List Char) → Ranks × Nat × Bool
  | [] => (r, pos, false)
  | t :: ts =>
      let pos' := pos + 1
      let r' := stepItem r pos' t
      if r'.dark ≠ none && r'.light ≠ none then (r', pos', true)
      else runItems r' pos' ts

/-- The page loop of `find_global_ranks` (lines 76–106): pages are the item
texts served for page 1, 2, …; after a page with fewer than 10 collected
items the loop breaks. -/
def runPages (r : Ranks) (pos : Nat) : List (List String) → Ranks
  | [] => r
  | pg :: pgs =>
      let items := collectItems pg
      let (r', pos', early) := runItems r pos items
      if early then r'
      else if items.length < 10 then r'
      else runPages r' pos' pgs

def find_global_ranks (pages : List (List String)) (maxPages : Nat) : Ranks :=
  runPages ⟨none, none⟩ 0 (pages.take maxPages)

/-- The predicate an item text must satisfy to be assigned to `dark`
(the `in`-gate of line 96 plus the regex). -/
def darkPred (txt : List Char) : Bool :=
  containsSub txt "fractal".data && containsSub txt "scape".data && darkSearch txt

def lightPred (txt : List Char) : Bool :=
  containsSub txt "fractal".data && containsSub txt "scape".data && lightSearch txt

/-- 0-based index of the first item matching `p`. -/
def firstIdx (p : List Char → Bool) : List (List Char) → Option Nat
  | [] => none
  | t :: ts => if p t then some 0 else (firstIdx p ts).map (· + 1)

/-- 1-based position of the first item matching `p`. -/
def firstMatchPos (p : List Char → Bool) (items : List (List Char)) : Option Nat :=
  (firstIdx p items).map (· + 1)

/-- Reference stopping rule (spec §4.4 as amended): the items of the served
pages in order, cut after the first page that collects fewer than 10 items. -/
def scannedItems : List (List String) → List (List Char)
  | [] => []
  | pg :: pgs =>
      let items := collectItems pg
      if items.length < 10 then items else items ++ scannedItems pgs

/-- `Option` fallback (`a` if present, else `b`). -/
def oOr (a b : Option Nat) : Option Nat :=
  match a with
  | some x => some x
  | none => b

/-! ## Worksheet model (openpyxl)

A sheet is a header row plus data rows; row `1` is the header, data row `r`
(1-based openpyxl row `r ≥ 2`) is `rows[r-2]`.  A cell holds a string or an
integer, or nothing.  `ws.cell(row, col, value)` pads as needed, mirroring
openpyxl's implicit cell creation; `max_column` is the dimension (at least 1,
as in openpyxl). -/

inductive CV where
  | s (v : String)
  | i (v : Int)
deriving DecidableEq, Repr

structure Ws where
  header : List (Option CV)
  rows : List (List (Option CV))
deriving DecidableEq, Repr

/-- Value of column `c` (1-based) in a row. -/
def getAt (row : List (Option CV)) (c : Nat) : Option CV :=
  row.getD (c - 1) none

def padTo (row : List (Option CV)) (n : Nat) : List (Option CV) :=
  row ++ List.replicate (n - row.length) none

/-- Set column `c` (1-based) in a row, creating intermediate cells. -/
def setAt (row : List (Option CV)) (c : Nat) (v : CV) : List (Option CV) :=
  (padTo row c).set (c - 1) (some v)

def Ws.maxColumn (ws : Ws) : Nat :=
  max 1 (max ws.header.length ((ws.rows.map List.length).foldr max 0))

def Ws.maxRow (ws : Ws) : Nat := ws.rows.length + 1

def setHeaderCell (ws : Ws) (c : Nat) (v : CV) : Ws :=
  { ws with header := setAt ws.header c v }

/-- Set a data cell; `i` is the 0-based data-row index.  Writing one row past
the end creates the row (openpyxl's implicit row creation on `ws.cell`). -/
def setDataCell (ws : Ws) (i c : Nat) (v : CV) : Ws :=
  if h : i < ws.rows.length then
    { ws with rows := ws.rows.set i (setAt (ws.rows.get ⟨i, h⟩) c v) }
  else
    { ws with rows := ws.rows ++ List.replicate (i - ws.rows.length) [] ++ [setAt [] c v] }

/-! ## `_parse_excel_date` (src/scripts/benuta_aov.py)

`strptime` with `"%Y-%m-%d %H:%M"` then `"%Y-%m-%d"`, on the stripped string;
`%Y` is exactly four digits, `%m`/`%d`/`%H`/`%M` are one or two digits in
range (two-digit form tried first, as in CPython's generated regex), a
whitespace in the format matches a nonempty whitespace run, and the whole
string must be consumed. -/

structure Date where
  y : Nat
  m : Nat
  d : Nat
deriving DecidableEq, Repr

def digit (c : Char) : Option Nat :=
  if c.isDigit then some (c.toNat - 48) else none

/-- Parse a 1–2 digit field whose value must lie in `[lo, hi]`; the two-digit
form is preferred, with fallback to one digit. -/
def parseField2 (lo hi : Nat) (cs : List Char) : Option (Nat × List Char) :=
  match cs with
  | a :: b :: rest =>
      match digit a, digit b with
      | some x, some y =>
          let v := 10 * x + y
          if lo ≤ v && v ≤ hi then some (v, rest)
          else if lo ≤ x && x ≤ hi then some (x, b :: rest) else none
      | some x, none => if lo ≤ x && x ≤ hi then some (x, b :: rest) else none
      | _, _ => none
  | [a] =>
      match digit a with
      | some x => if lo ≤ x && x ≤ hi then some (x, []) else none
      | none => none
  | [] => none

def parseYear (cs : List Char) : Option (Nat × List Char) :=
  match cs with
  | a :: b :: c :: d :: rest =>
      match digit a, digit b, digit c, digit d with
      | some w, some x, some y, some z => some (1000 * w + 100 * x + 10 * y + z, rest)
      | _, _, _, _ => none
  | _ => none

def expectChar (c : Char) (cs : List Char) : Option (List Char) :=
  match cs with
  | a :: rest => if a = c then some rest else none
  | [] => none

def parseYMD (cs : List Char) : Option (Date × List Char) := do
  let (y, cs) ← parseYear cs
  let cs ← expectChar '-' cs
  let (m, cs) ← parseField2 1 12 cs
  let cs ← expectChar '-' cs
  let (d, cs) ← parseField2 1 31 cs
  pure (⟨y, m, d⟩, cs)

def parseHM (cs : List Char) : Option (List Char) := do
  let sp := cs.takeWhile isPySpace
  if sp.isEmpty then none
  else do
    let (_, cs) ← parseField2 0 23 (cs.drop sp.length)
    let cs ← expectChar ':' cs
    let (_, cs) ← parseField2 0 59 cs
    pure cs

def pyStrip (s : String) : List Char :=
  ((s.data.dropWhile isPySpace).reverse.dropWhile isPySpace).reverse

def parseExcelDate (s : String) : Option Date :=
  let cs := pyStrip s
  if cs.isEmpty then none
  else
    match parseYMD cs with
    | none => none
    | some (d, rest) =>
        if rest.isEmpty then some d
        else
          match parseHM rest with
          | some [] => some d
          | _ => none

/-- `_parse_excel_date` on a cell value: only strings can parse (the sheets
written by these scripts store dates as formatted strings). -/
def parseExcelDateCV : Option CV → Option Date
  | some (.s v) => parseExcelDate v
  | _ => none

/-! ## `append_to_excel` (src/scripts/benuta_aov.py lines 250–317) -/

/-- 0-based index of the first cell equal to `some (.s lbl)`. -/
def cellIdx (lbl : String) : List (Option CV) → Option Nat
  | [] => none
  | c :: rest => if c = some (.s lbl) then some 0 else (cellIdx lbl rest).map (· + 1)

/-- Column (1-based) of the last header cell holding exactly the string
`lbl` — the `{cell.value: cell.column}` dict keeps the last occurrence. -/
def lastHeaderIdx (header : List (Option CV)) (lbl : String) : Option Nat :=
  (cellIdx lbl header.reverse).map (fun i => header.length - i)

/-- `_get_or_create_headers`: find or create the "Benuta 100" / "Benuta 50"
header columns (lines 250–264). -/
def getOrCreateHeaders (ws : Ws) : Nat × Nat × Ws :=
  let c100? := lastHeaderIdx ws.header "Benuta 100"
  let c50? := lastHeaderIdx ws.header "Benuta 50"
  let (c100, ws1) :=
    match c100? with
    | some c => (c, ws)
    | none =>
        let c := if 1 ≤ ws.maxColumn then ws.maxColumn + 1 else 2
        (c, setHeaderCell ws c (.s "Benuta 100"))
  let (c50, ws2) :=
    match c50? with
    | some c => (c, ws1)
    | none =>
        let c :=
          if c100 = ws1.maxColumn && getAt ws1.header c100 = some (.s "Benuta 100")
          then c100 + 1 else ws1.maxColumn + 1
        (c, setHeaderCell ws1 c (.s "Benuta 50"))
  (c100, c50, ws2)

/-- `_find_row_for_today`: 1-based openpyxl row of the first data row whose
column-A value parses to `today`. -/
def findRowAux (today : Date) (r : Nat) : List (List (Option CV)) → Option Nat
  | [] => none
  | row :: rest =>
      if parseExcelDateCV (getAt row 1) = some today then some r
      else findRowAux today (r + 1) rest

def findRowForToday (ws : Ws) (today : Date) : Option Nat :=
  findRowAux today 2 ws.rows

/-- `append_to_excel` on an existing sheet (lines 287–317); `today` stands for
`datetime.now(TZ).date()`.  The `number_format` assignments touch no values
and are not modelled. -/
def append_to_excel (ws : Ws) (today : Date) (ts : String)
    (aov100 aov50 : Option Int) : Ws :=
  let (c100, c50, ws1) := getOrCreateHeaders ws
  let (row, ws2) :=
    match findRowForToday ws1 today with
    | some r => (r, ws1)
    | none =>
        let r := ws1.maxRow + 1
        (r, setDataCell ws1 (r - 2) 1 (.s ts))
  let ws3 := match aov100 with
    | some a => setDataCell ws2 (row - 2) c100 (.i a)
    | none => ws2
  match aov50 with
  | some a => setDataCell ws3 (row - 2) c50 (.i a)
  | none => ws3

/-- The two optional data-cell writes of `append_to_excel`, at row level
(factored out for the idempotence proof). -/
def writeCells (row : List (Option CV)) (c100 c50 : Nat) (a100 a50 : Option Int) :
    List (Option CV) :=
  let r1 := match a100 with
    | some a => setAt row c100 (.i a)
    | none => row
  match a50 with
  | some a => setAt r1 c50 (.i a)
  | none => r1

/-! ## src/scripts/adtraction_stats.py -/

/-- `label\s+([0-9 ][0-9 ]+)` matched at the head of `cs` (case-sensitive):
greedy `\s+` backtracks from the longest whitespace run until the class run
that follows has length ≥ 2.  Returns the group-1 text. -/
def inNumClass (c : Char) : Bool := c.isDigit || c = ' '

def labelTryK (rest : List Char) : Nat → Option (List Char)
  | 0 => none
  | k + 1 =>
      let g := (rest.drop (k + 1)).takeWhile inNumClass
      if 2 ≤ g.length then some g else labelTryK rest k

def labelMatchAt (lbl : List Char) (cs : List Char) : Option (List Char) :=
  if lbl.isPrefixOf cs then
    let rest := cs.drop lbl.length
    let w := rest.takeWhile isPySpace
    if w.isEmpty then none else labelTryK rest w.length
  else none

def labelSearch (lbl : List Char) : List Char → Option (List Char)
  | [] => none
  | c :: cs =>
      match labelMatchAt lbl (c :: cs) with
      | some g => some g
      | none => labelSearch lbl cs

/-- `int(m.group(1).replace(" ", ""))`; an all-space group makes `int("")`
raise. -/
def groupVal (g : List Char) : Except String Nat :=
  let ds := g.filter (fun c => c ≠ ' ')
  if ds.isEmpty then .error "invalid literal for int" else .ok (digitsToNat ds)

/-- One label of the loop body of `parse_numbers`: no regex match skips the
label, a matched group goes through `int(...)` (which can raise). -/
def labelVal (lbl : String) (text : String) : Except String (Option Nat) :=
  match labelSearch lbl.data text.data with
  | none => .ok none
  | some g =>
      match groupVal g with
      | .error e => .error e
      | .ok v => .ok (some v)

/-- `parse_numbers` (lines 33–46): labels are looked up in order; a label with
no match is skipped, and any missing label raises `ValueError` at the end. -/
def parse_numbers (text : String) : Except String (Nat × Nat) :=
  match labelVal "Konverteringar" text with
  | .error e => .error e
  | .ok conv? =>
      match labelVal "Varumärken" text with
      | .error e => .error e
      | .ok brands? =>
          match conv?, brands? with
          | some c, some b => .ok (c, b)
          | _, _ => .error "Saknar etiketter. Strukturen kan ha ändrats."

/-- `int(x)` on a cell value used for the previous-conversions diff. -/
def intOfCV : CV → Option Int
  | .i n => some n
  | .s v =>
      let cs := pyStrip v
      let (sign, cs) : Int × List Char :=
        match cs with
        | '+' :: t => (1, t)
        | '-' :: t => (-1, t)
        | t => (1, t)
      if !cs.isEmpty && cs.all Char.isDigit then some (sign * digitsToNat cs) else none

/-- `append_row_xlsx` (lines 61–86): duplicate-date check over all data rows,
then diff against the last row's column B, then append.  Returns `none` and
the untouched sheet when the date is already present. -/
def append_row_xlsx (ws : Ws) (datum : String) (conv brands : Int) :
    Option (String × Int × Int × Option Int) × Ws :=
  if ws.rows.any (fun r => getAt r 1 = some (.s datum)) then (none, ws)
  else
    let prevConv : Option CV :=
      match ws.rows.getLast? with
      | none => none
      | some r => getAt r 2
    let diff : Option Int :=
      match prevConv with
      | none => none
      | some cv =>
          match intOfCV cv with
          | some n => some (conv - n)
          | none => none
    let newRow : List (Option CV) :=
      [some (.s datum), some (.i conv), some (.i brands), diff.map .i]
    (some (datum, conv, brands, diff), { ws with rows := ws.rows ++ [newRow] })

/-- The script's `main` under the `__main__` guard (lines 88–116): a parse
error aborts with exit code 1 before anything is written. -/
def statsMain (text datum : String) (ws : Ws) : Nat × Ws :=
  match parse_numbers text with
  | .error _ => (1, ws)
  | .ok (c, b) =>
      let (_, ws') := append_row_xlsx ws datum (c : Int) (b : Int)
      (0, ws')

end Kodning

namespace Kodning

/-! # Theorems -/

/-- C1, counterexample: the three reference inputs do **not** all parse as
the specification states.  `"1 234 kr"` yields 234 (the regex value group
does not span space-separated digit groups), and `"€12.50"` yields no match
at all (the regex requires the currency token after the numeral). -/
theorem C1_counterexample :
    ¬ (parse_epc_cell "129,90 kr" = some ((1299 : ℚ)/10, "kr")
       ∧ parse_epc_cell "1 234 kr" = some ((1234 : ℚ), "kr")
       ∧ parse_epc_cell "€12.50" = some ((25 : ℚ)/2, "EUR")) := by
  intro h
  have h3 := h.2.2
  rw [show parse_epc_cell "€12.50" = none by decide] at h3
  exact Option.noConfusion h3

/-- C1, amended: the extractor's actual behaviour on the three reference
inputs — `"129,90 kr"` parses to `(129.90, "kr")`; `"1 234 kr"` parses to
`(234, "kr")` because the value group of `CURRENCY_REGEX` cannot span the
space-separated thousands group; `"€12.50"` is no match because the currency
token must follow the numeral. -/
theorem C1_amended :
    parse_epc_cell "129,90 kr" = some ((1299 : ℚ)/10, "kr")
    ∧ parse_epc_cell "1 234 kr" = some ((234 : ℚ), "kr")
    ∧ parse_epc_cell "€12.50" = none := by
  refine ⟨?_, ?_, by decide⟩
  · have h : parse_epc_cell "129,90 kr"
        = some ((1 : ℚ) * ((129 : ℚ) + (90 : ℚ) / 10 ^ 2), "kr") := rfl
    rw [h]; norm_num
  · have h : parse_epc_cell "1 234 kr" = some ((1 : ℚ) * (234 : ℚ), "kr") := rfl
    rw [h]; norm_num

/-- C2, counterexample: `"Xinga data 5 kr"` contains the no-data phrase
`"inga data"` as a substring, yet the extractor returns a match (the
`NO_DATA_RE` word boundary `\b` fails inside a longer word); and
`parse_price`'s digit-stripping fallback returns a value for `"500"` even
though no currency token is present. -/
theorem C2_counterexample :
    containsSub "Xinga data 5 kr".data "inga data".data = true
    ∧ parse_epc_cell "Xinga data 5 kr" = some ((5 : ℚ), "kr")
    ∧ parse_price "500" = some 500 := by
  refine ⟨by decide, ?_, by decide⟩
  have h : parse_epc_cell "Xinga data 5 kr" = some ((1 : ℚ) * (5 : ℚ), "kr") := rfl
  rw [h]; norm_num

theorem searchPrice_eq_none (cs : List Char) (h : ∀ c ∈ cs, c.isDigit = false) :
    searchPrice cs = none := by
  induction cs with
  | nil => rfl
  | cons c t ih =>
      have hc : c.isDigit = false := h c (List.mem_cons_self c t)
      have ht : searchPrice t = none := ih fun x hx => h x (List.mem_cons_of_mem c hx)
      simp [searchPrice, matchPriceAt, hc, ht]

/-- C2, amended: both extractors are total (no exception), and return
"no match" for: empty input; input where a no-data phrase occurs delimited by
word boundaries (this is weaker than "containing a no-data phrase": a phrase
embedded in a longer word does not short-circuit); input where the currency
regex finds no match.  `parse_price` returns "no match" for input with no
digit at all, but its fallback does *not* require a currency token.  Callers
treat "no match" as skip-this-data-point. -/
theorem C2_amended :
    parse_epc_cell "" = none
    ∧ (∀ s : String, noDataFound s = true → parse_epc_cell s = none)
    ∧ (∀ s : String, searchCurrency (replaceNbsp s) = none → parse_epc_cell s = none)
    ∧ parse_price "" = none
    ∧ (∀ s : String, (∀ c ∈ s.data, c.isDigit = false) → parse_price s = none)
    ∧ (∀ (cells : List String) (s : String), parse_epc_cell s = none →
        collectEpc (cells ++ [s]) = collectEpc cells)
    ∧ (∀ (ts : List String) (s : String), parse_price s = none →
        extract_lock_prices (ts ++ [s]) = extract_lock_prices ts) := by
  refine ⟨by decide, ?_, ?_, by decide, ?_, ?_, ?_⟩
  · intro s h
    simp [parse_epc_cell, h]
  · intro s h
    simp [parse_epc_cell, h]
  · intro s h
    have hs : searchPrice s.data = none := searchPrice_eq_none _ h
    have hf : s.data.filter Char.isDigit = [] := by
      exact List.filter_eq_nil_iff.mpr fun c hc => by simp [h c hc]
    simp [parse_price, hs, hf]
  · intro cells s h
    simp [collectEpc, h]
  · intro ts s h
    simp [extract_lock_prices, h]

theorem C2_witness :
    parse_epc_cell "Inga data" = none
    ∧ parse_epc_cell "abc" = none
    ∧ parse_price "abc" = none
    ∧ collectEpc (["5 kr"] ++ ["Inga data"]) = collectEpc ["5 kr"]
    ∧ extract_lock_prices (["100 kr"] ++ ["abc"]) = extract_lock_prices ["100 kr"] := by
  obtain ⟨h1, h2, h3, h4, h5, h6, h7⟩ := C2_amended
  exact ⟨h2 "Inga data" (by decide), h3 "abc" (by decide), h5 "abc" (by decide),
    h6 ["5 kr"] "Inga data" (h2 "Inga data" (by decide)),
    h7 ["100 kr"] "abc" (h5 "abc" (by decide))⟩

/-- C3 (confirmed): the sponsored tile is filtered out before positions are
assigned, so on the spec's four-item page the dark pattern resolves to
position 2, not 3. -/
theorem C3_sponsored_rank :
    looksSponsored "Sponsored: Fractal Scape Dark X1" = true
    ∧ (find_global_ranks [["Acme Widget", "Sponsored: Fractal Scape Dark X1",
        "Fractal Scape Dark X1", "Other"]] 10).dark = some 2 := by
  decide

/-- C8, counterexample: with a two-page budget, an unmatched pattern and a
first page of fewer than 10 items, the scan stops after page 1 even though
the budget is not exhausted and the item on page 2 matches — contradicting
"stops exactly when every pattern has been matched or the page budget is
exhausted". -/
theorem C8_counterexample :
    (find_global_ranks [["item a"], ["Fractal Scape Dark X1"]] 2).dark = none
    ∧ firstMatchPos darkPred
        ((([["item a"], ["Fractal Scape Dark X1"]] : List (List String)).take 2).map
          collectItems).flatten = some 2 := by
  decide

theorem oOr_none (x : Option Nat) : oOr none x = x := rfl

theorem oOr_none_right (x : Option Nat) : oOr x none = x := by
  cases x <;> rfl

theorem oOr_map (x y : Option Nat) (f : Nat → Nat) :
    (oOr x y).map f = oOr (x.map f) (y.map f) := by
  cases x <;> simp [oOr]

theorem oOr_assoc (x y z : Option Nat) : oOr (oOr x y) z = oOr x (oOr y z) := by
  cases x <;> simp [oOr]

theorem oOr_absorb (x y z : Option Nat) (h : oOr x y ≠ none) : oOr x y = oOr x (oOr y z) := by
  cases x
  · cases y
    · simp [oOr] at h
    · simp [oOr]
  · simp [oOr]

theorem firstIdx_append (p : List Char → Bool) (a b : List (List Char)) :
    firstIdx p (a ++ b) = oOr (firstIdx p a) ((firstIdx p b).map (· + a.length)) := by
  induction a with
  | nil =>
      simp [firstIdx, oOr_none]
  | cons t ts ih =>
      by_cases hp : p t
      · simp [firstIdx, hp, oOr]
      · rw [List.cons_append]
        simp only [firstIdx, hp, Bool.false_eq_true, if_false]
        rw [ih, oOr_map, Option.map_map]
        rfl

theorem stepItem_dark (r : Ranks) (pos : Nat) (t : List Char) :
    (stepItem r pos t).dark = if r.dark = none ∧ darkPred t = true then some pos else r.dark := by
  have ha : darkPred t
      = (containsSub t "fractal".data && containsSub t "scape".data && darkSearch t) := rfl
  unfold stepItem
  by_cases h1 : containsSub t "fractal".data = true <;>
    by_cases h2 : containsSub t "scape".data = true <;>
    by_cases h3 : darkSearch t = true <;>
    by_cases h4 : r.dark = none <;>
    simp [ha, h1, h2, h3, h4] <;>
    (try (split <;> simp [h4]))

theorem stepItem_light (r : Ranks) (pos : Nat) (t : List Char) :
    (stepItem r pos t).light
      = if r.light = none ∧ lightPred t = true then some pos else r.light := by
  have ha : lightPred t
      = (containsSub t "fractal".data && containsSub t "scape".data && lightSearch t) := rfl
  unfold stepItem
  by_cases h1 : containsSub t "fractal".data = true <;>
    by_cases h2 : containsSub t "scape".data = true <;>
    by_cases h3 : lightSearch t = true <;>
    by_cases h4 : r.light = none <;>
    by_cases h5 : r.dark = none <;>
    by_cases h6 : darkSearch t = true <;>
    simp [ha, h1, h2, h3, h4, h5, h6]

theorem runItems_early : ∀ (items : List (List Char)) (r : Ranks) (pos : Nat),
    (runItems r pos items).2.2 = true →
      ((runItems r pos items).1).dark ≠ none ∧ ((runItems r pos items).1).light ≠ none := by
  intro items
  induction items with
  | nil => intro r pos h; simp [runItems] at h
  | cons t ts ih =>
      intro r pos h
      by_cases he : ((stepItem r (pos + 1) t).dark ≠ none
          && (stepItem r (pos + 1) t).light ≠ none) = true
      · simp only [runItems, he, if_true]
        simpa using he
      · simp only [runItems, he, if_false, Bool.false_eq_true] at h ⊢
        exact ih _ _ h

theorem runItems_pos : ∀ (items : List (List Char)) (r : Ranks) (pos : Nat),
    (runItems r pos items).2.2 = false →
      (runItems r pos items).2.1 = pos + items.length := by
  intro items
  induction items with
  | nil => intro r pos _; simp [runItems]
  | cons t ts ih =>
      intro r pos h
      by_cases he : ((stepItem r (pos + 1) t).dark ≠ none
          && (stepItem r (pos + 1) t).light ≠ none) = true
      · simp only [runItems, he, if_true] at h
        simp at h
      · simp only [runItems, he, if_false, Bool.false_eq_true] at h ⊢
        rw [ih _ _ h]
        simp [List.length_cons]
        omega

theorem runItems_dark : ∀ (items : List (List Char)) (r : Ranks) (pos : Nat),
    ((runItems r pos items).1).dark
      = oOr r.dark ((firstIdx darkPred items).map (fun i => pos + i + 1)) := by
  intro items
  induction items with
  | nil =>
      intro r pos
      simp [runItems, firstIdx, oOr_none_right]
  | cons t ts ih =>
      intro r pos
      have hd := stepItem_dark r (pos + 1) t
      by_cases he : ((stepItem r (pos + 1) t).dark ≠ none
          && (stepItem r (pos + 1) t).light ≠ none) = true
      · simp only [runItems, he, if_true]
        have hdn : (stepItem r (pos + 1) t).dark ≠ none := by
          have := he
          simp only [Bool.and_eq_true, decide_eq_true_eq] at this
          exact this.1
        rcases hr : r.dark with _ | d
        · by_cases hp : darkPred t = true
          · rw [hd]
            simp [hr, hp, firstIdx, oOr]
          · rw [hd, hr] at hdn
            simp [hp] at hdn
        · rw [hd]
          simp [hr, oOr]
      · simp only [runItems]
        rw [if_neg he, ih]
        rcases hr : r.dark with _ | d
        · by_cases hp : darkPred t = true
          · rw [hd]
            simp [hr, hp, firstIdx, oOr]
          · rw [hd]
            simp only [hr, hp, and_false, if_false, oOr_none, firstIdx,
              Bool.false_eq_true, false_and, Option.map_map]
            congr 1
            funext i
            simp
            omega
        · rw [hd]
          simp [hr, oOr]

theorem runItems_light : ∀ (items : List (List Char)) (r : Ranks) (pos : Nat),
    ((runItems r pos items).1).light
      = oOr r.light ((firstIdx lightPred items).map (fun i => pos + i + 1)) := by
  intro items
  induction items with
  | nil =>
      intro r pos
      simp [runItems, firstIdx, oOr_none_right]
  | cons t ts ih =>
      intro r pos
      have hd := stepItem_light r (pos + 1) t
      by_cases he : ((stepItem r (pos + 1) t).dark ≠ none
          && (stepItem r (pos + 1) t).light ≠ none) = true
      · simp only [runItems, he, if_true]
        have hdn : (stepItem r (pos + 1) t).light ≠ none := by
          have := he
          simp only [Bool.and_eq_true, decide_eq_true_eq] at this
          exact this.2
        rcases hr : r.light with _ | d
        · by_cases hp : lightPred t = true
          · rw [hd]
            simp [hr, hp, firstIdx, oOr]
          · rw [hd, hr] at hdn
            simp [hp] at hdn
        · rw [hd]
          simp [hr, oOr]
      · simp only [runItems]
        rw [if_neg he, ih]
        rcases hr : r.light with _ | d
        · by_cases hp : lightPred t = true
          · rw [hd]
            simp [hr, hp, firstIdx, oOr]
          · rw [hd]
            simp only [hr, hp, and_false, if_false, oOr_none, firstIdx,
              Bool.false_eq_true, false_and, Option.map_map]
            congr 1
            funext i
            simp
            omega
        · rw [hd]
          simp [hr, oOr]

theorem runPages_dark : ∀ (pgs : List (List String)) (r : Ranks) (pos : Nat),
    (runPages r pos pgs).dark
      = oOr r.dark ((firstIdx darkPred (scannedItems pgs)).map (fun i => pos + i + 1)) := by
  intro pgs
  induction pgs with
  | nil =>
      intro r pos
      simp [runPages, scannedItems, firstIdx, oOr_none_right]
  | cons pg pgs ih =>
      intro r pos
      simp only [runPages, scannedItems]
      rcases hflag : (runItems r pos (collectItems pg)).2.2 with _ | _
      · -- no early return
        simp only [hflag, Bool.false_eq_true, if_false]
        by_cases hsmall : (collectItems pg).length < 10
        · simp only [hsmall, if_true]
          rw [runItems_dark]
        · simp only [hsmall, if_false]
          rw [ih, runItems_dark, runItems_pos _ _ _ hflag, oOr_assoc,
            firstIdx_append, oOr_map, Option.map_map]
          congr 3
          funext i
          simp
          omega
      · -- early return: later items cannot change the first match
        simp only [hflag, if_true]
        have hdn := (runItems_early (collectItems pg) r pos hflag).1
        rw [runItems_dark] at hdn ⊢
        by_cases hsmall : (collectItems pg).length < 10
        · simp [hsmall]
        · simp only [hsmall, if_false, firstIdx_append, oOr_map, Option.map_map]
          exact oOr_absorb _ _ _ hdn

theorem runPages_light : ∀ (pgs : List (List String)) (r : Ranks) (pos : Nat),
    (runPages r pos pgs).light
      = oOr r.light ((firstIdx lightPred (scannedItems pgs)).map (fun i => pos + i + 1)) := by
  intro pgs
  induction pgs with
  | nil =>
      intro r pos
      simp [runPages, scannedItems, firstIdx, oOr_none_right]
  | cons pg pgs ih =>
      intro r pos
      simp only [runPages, scannedItems]
      rcases hflag : (runItems r pos (collectItems pg)).2.2 with _ | _
      · simp only [hflag, Bool.false_eq_true, if_false]
        by_cases hsmall : (collectItems pg).length < 10
        · simp only [hsmall, if_true]
          rw [runItems_light]
        · simp only [hsmall, if_false]
          rw [ih, runItems_light, runItems_pos _ _ _ hflag, oOr_assoc,
            firstIdx_append, oOr_map, Option.map_map]
          congr 3
          funext i
          simp
          omega
      · simp only [hflag, if_true]
        have hdn := (runItems_early (collectItems pg) r pos hflag).2
        rw [runItems_light] at hdn ⊢
        by_cases hsmall : (collectItems pg).length < 10
        · simp [hsmall]
        · simp only [hsmall, if_false, firstIdx_append, oOr_map, Option.map_map]
          exact oOr_absorb _ _ _ hdn

/-- C8, amended: position numbering is global across the scanned pages (each
pattern resolves to the 1-based index of its first match in the concatenation
of the collected items of the scanned pages — the counter never resets), and
unmatched patterns resolve to `none` as a normal outcome; but the scan stops
at the first of **three** conditions: every pattern matched, the page budget
exhausted, or a page yielding fewer than 10 collected items (an
end-of-results heuristic the claim omits). -/
theorem C8_amended :
    ∀ (pages : List (List String)) (maxPages : Nat),
      find_global_ranks pages maxPages =
        { dark := firstMatchPos darkPred (scannedItems (pages.take maxPages)),
          light := firstMatchPos lightPred (scannedItems (pages.take maxPages)) } := by
  intro pages maxPages
  have hd := runPages_dark (pages.take maxPages) ⟨none, none⟩ 0
  have hl := runPages_light (pages.take maxPages) ⟨none, none⟩ 0
  have hext : ∀ x y : Ranks, x.dark = y.dark → x.light = y.light → x = y := by
    intro x y h1 h2
    cases x; cases y
    simp_all
  apply hext
  · rw [find_global_ranks, hd]
    simp only [oOr_none, firstMatchPos]
    congr 1
    funext i
    omega
  · rw [find_global_ranks, hl]
    simp only [oOr_none, firstMatchPos]
    congr 1
    funext i
    omega


/-- C5 (confirmed): `to_sek` returns the amount unchanged for SEK, returns
`none` (never zero, never an exception) when no rate exists for the mapped
currency (`"NOK"` directly, or `"kr"` in the NO country context), and the
Total aggregation of `main` drops such observations from the contributed
list — hence from both the sum and the count. -/
theorem C5_missing_rate_unavailable :
    ∀ (a v : ℚ) (rates : List (String × ℚ)) (cc : Option String)
      (raw : List (ℚ × String)),
      to_sek a "SEK" rates cc = some a
      ∧ (rates.lookup "NOK" = none → to_sek v "NOK" rates cc = none)
      ∧ (rates.lookup "NOK" = none → to_sek v "kr" rates (some "NO") = none)
      ∧ (rates.lookup "NOK" = none →
          totalContrib (raw ++ [(v, "NOK")]) rates cc = totalContrib raw rates cc) := by
  intro a v rates cc raw
  have keyNOK : ∀ (w : ℚ), rates.lookup "NOK" = none → to_sek w "NOK" rates cc = none := by
    intro w h
    have e : to_sek w "NOK" rates cc =
        (match rates.lookup "NOK" with
         | none => none
         | some r => if r = 0 then none else some (w / r)) := rfl
    rw [e, h]
  refine ⟨rfl, keyNOK v, ?_, ?_⟩
  · intro h
    have e : to_sek v "kr" rates (some "NO") =
        (match rates.lookup "NOK" with
         | none => none
         | some r => if r = 0 then none else some (v / r)) := rfl
    rw [e, h]
  · intro h
    have hnone := keyNOK v h
    by_cases hb : localAccept v "NOK"
    · simp [totalContrib, localFilter, List.filter_append, List.filterMap_append,
        hb, hnone]
    · simp [totalContrib, localFilter, List.filter_append, List.filterMap_append, hb]

theorem C5_witness :
    to_sek 7 "SEK" [] none = some 7
    ∧ to_sek 3 "NOK" [] none = none
    ∧ to_sek 3 "kr" [] (some "NO") = none
    ∧ totalContrib ([] ++ [((3 : ℚ), "NOK")]) [] none = totalContrib [] [] none := by
  obtain ⟨h1, h2, h3, h4⟩ := C5_missing_rate_unavailable 7 3 [] none []
  exact ⟨h1, h2 rfl, h3 rfl, h4 rfl⟩

/-- C6 (confirmed): the symbol table maps €→EUR, $→USD, £→GBP, ₽→RUB, ₺→TRY
in every conversion variant; the literal "kr" maps through the caller's
country context (SE→SEK, DK→DKK, NO→NOK, default SEK) in
scripts/adtraction_epc_all.py's `to_sek` and
scripts/adtraction_epc_finance.py's `normalize_currency`, while
src/adtraction_epc.py's `to_sek` — which takes no country context — maps
"kr" to SEK, the no-context default. -/
theorem C6_kr_and_symbol_mapping :
    ∀ (a : ℚ) (rates : List (String × ℚ)) (cc : Option String),
      to_sek a "kr" rates (some "SE") = some a
      ∧ to_sek a "kr" rates none = some a
      ∧ to_sek a "kr" rates (some "DK") = to_sek a "DKK" rates cc
      ∧ to_sek a "kr" rates (some "NO") = to_sek a "NOK" rates cc
      ∧ to_sek a "€" rates cc = to_sek a "EUR" rates cc
      ∧ to_sek a "$" rates cc = to_sek a "USD" rates cc
      ∧ to_sek a "£" rates cc = to_sek a "GBP" rates cc
      ∧ to_sek a "₽" rates cc = to_sek a "RUB" rates cc
      ∧ to_sek a "₺" rates cc = to_sek a "TRY" rates cc
      ∧ normalize_currency "kr" (some "SE") = "SEK"
      ∧ normalize_currency "kr" none = "SEK"
      ∧ normalize_currency "kr" (some "DK") = "DKK"
      ∧ normalize_currency "kr" (some "NO") = "NOK"
      ∧ normalize_currency "€" cc = "EUR"
      ∧ normalize_currency "$" cc = "USD"
      ∧ normalize_currency "£" cc = "GBP"
      ∧ normalize_currency "₽" cc = "RUB"
      ∧ normalize_currency "₺" cc = "TRY"
      ∧ to_sek_epc a "kr" rates = some a
      ∧ to_sek_epc a "€" rates = to_sek_epc a "EUR" rates
      ∧ to_sek_epc a "$" rates = to_sek_epc a "USD" rates
      ∧ to_sek_epc a "£" rates = to_sek_epc a "GBP" rates
      ∧ to_sek_epc a "₽" rates = to_sek_epc a "RUB" rates
      ∧ to_sek_epc a "₺" rates = to_sek_epc a "TRY" rates := by
  intro a rates cc
  exact ⟨rfl, rfl, rfl, rfl, rfl, rfl, rfl, rfl, rfl, rfl, rfl, rfl, rfl, rfl,
    rfl, rfl, rfl, rfl, rfl, rfl, rfl, rfl, rfl, rfl⟩

theorem localAccept_zero_EUR : localAccept 0 "EUR" = false := by
  have h : localAccept 0 "EUR" = (decide ((1/100 : ℚ) ≤ 0) && decide ((0 : ℚ) ≤ 20)) := rfl
  rw [h]
  have : ¬ ((1/100 : ℚ) ≤ 0) := by norm_num
  simp [this]

/-- C7 (confirmed): the EUR plausibility band is the closed interval
`[0.01, 20]` — 0 is rejected, 10 and both endpoints are accepted — and a
rejected observation is dropped before the mean, the count and the SEK total
are formed (rejection, not clamping). -/
theorem C7_eur_band :
    localFilter [((0 : ℚ), "EUR")] = []
    ∧ localFilter [((10 : ℚ), "EUR")] = [((10 : ℚ), "EUR")]
    ∧ localFilter [((1/100 : ℚ), "EUR")] = [((1/100 : ℚ), "EUR")]
    ∧ localFilter [((20 : ℚ), "EUR")] = [((20 : ℚ), "EUR")]
    ∧ (∀ raw : List (ℚ × String), localStats (raw ++ [((0 : ℚ), "EUR")]) = localStats raw)
    ∧ (∀ (raw : List (ℚ × String)) (rates : List (String × ℚ)) (cc : Option String),
        totalContrib (raw ++ [((0 : ℚ), "EUR")]) rates cc = totalContrib raw rates cc) := by
  have acc10 : localAccept 10 "EUR" = true := by
    have h : localAccept 10 "EUR" = (decide ((1/100 : ℚ) ≤ 10) && decide ((10 : ℚ) ≤ 20)) := rfl
    rw [h]
    simp only [Bool.and_eq_true, decide_eq_true_eq]
    constructor <;> norm_num
  have accLo : localAccept (1/100) "EUR" = true := by
    have h : localAccept (1/100) "EUR"
        = (decide ((1/100 : ℚ) ≤ 1/100) && decide ((1/100 : ℚ) ≤ 20)) := rfl
    rw [h]
    simp only [Bool.and_eq_true, decide_eq_true_eq]
    constructor <;> norm_num
  have accHi : localAccept 20 "EUR" = true := by
    have h : localAccept 20 "EUR" = (decide ((1/100 : ℚ) ≤ 20) && decide ((20 : ℚ) ≤ 20)) := rfl
    rw [h]
    simp only [Bool.and_eq_true, decide_eq_true_eq]
    constructor <;> norm_num
  have accLo' : localAccept ((100 : ℚ)⁻¹) "EUR" = true := by
    rw [show ((100 : ℚ)⁻¹) = 1/100 by norm_num]
    exact accLo
  have hfil : ∀ raw : List (ℚ × String),
      localFilter (raw ++ [((0 : ℚ), "EUR")]) = localFilter raw := by
    intro raw
    simp [localFilter, List.filter_append, localAccept_zero_EUR]
  refine ⟨?_, ?_, ?_, ?_, ?_, ?_⟩
  · simp [localFilter, localAccept_zero_EUR]
  · simp [localFilter, acc10]
  · simp [localFilter, accLo, accLo']
  · simp [localFilter, accHi]
  · intro raw
    simp only [localStats, hfil]
  · intro raw rates cc
    simp only [totalContrib, hfil]

/-! ### Helper lemmas for the sheet model (claim C4) -/

theorem length_padTo (row : List (Option CV)) (n : Nat) :
    (padTo row n).length = max row.length n := by
  simp [padTo]
  omega

theorem length_setAt (row : List (Option CV)) (c : Nat) (v : CV) :
    (setAt row c v).length = max row.length c := by
  simp [setAt, List.length_set, length_padTo]

theorem set_concat {α : Type} (l : List α) (a b : α) :
    (l ++ [a]).set l.length b = l ++ [b] := by
  induction l with
  | nil => rfl
  | cons x xs ih => simp [List.set, ih]

theorem getD_append_replicate (l : List (Option CV)) (k i : Nat) :
    (l ++ List.replicate k (none : Option CV)).getD i none = l.getD i none := by
  rcases Nat.lt_or_ge i l.length with h | h
  · simp [List.getD_eq_getElem?_getD, List.getElem?_append, h]
  · have h1 : l[i]? = none := List.getElem?_eq_none (by simpa using h)
    rw [List.getD_eq_getElem?_getD, List.getD_eq_getElem?_getD, List.getElem?_append,
      if_neg (by omega), h1]
    rcases Nat.lt_or_ge (i - l.length) k with h3 | h3
    · simp [List.getElem?_replicate, h3]
    · have h4 : (List.replicate k (none : Option CV))[i - l.length]? = none :=
        List.getElem?_eq_none (by simpa using h3)
      simp [h4]

theorem getAt_setAt_self (row : List (Option CV)) (c : Nat) (v : CV) (hc : 1 ≤ c) :
    getAt (setAt row c v) c = some v := by
  unfold getAt setAt
  have hlen : c - 1 < (padTo row c).length := by
    rw [length_padTo]; omega
  simp [List.getD, List.getElem?_set_self', hlen]

theorem getAt_setAt_ne (row : List (Option CV)) (c c' : Nat) (v : CV)
    (hc : 1 ≤ c) (hc' : 1 ≤ c') (h : c' ≠ c) :
    getAt (setAt row c v) c' = getAt row c' := by
  unfold getAt setAt
  rw [List.getD_eq_getElem?_getD, List.getElem?_set_ne (by omega : c - 1 ≠ c' - 1)]
  have := getD_append_replicate row (c - row.length) (c' - 1)
  simpa [padTo, List.getD_eq_getElem?_getD] using this

theorem setAt_fresh (h : List (Option CV)) (c : Nat) (v : CV) (hc : h.length < c) :
    setAt h c v = h ++ List.replicate (c - 1 - h.length) none ++ [some v] := by
  unfold setAt padTo
  have hk : c - h.length = (c - 1 - h.length) + 1 := by omega
  rw [hk, List.replicate_succ']
  have hlen : (h ++ List.replicate (c - 1 - h.length) (none : Option CV)).length = c - 1 := by
    simp
    omega
  have hsc := set_concat (h ++ List.replicate (c - 1 - h.length) none) none (some v)
  rw [hlen] at hsc
  calc (h ++ (List.replicate (c - 1 - h.length) none ++ [none])).set (c - 1) (some v)
      = ((h ++ List.replicate (c - 1 - h.length) none) ++ [none]).set (c - 1) (some v) := by
        rw [List.append_assoc]
    _ = (h ++ List.replicate (c - 1 - h.length) none) ++ [some v] := hsc
    _ = h ++ List.replicate (c - 1 - h.length) none ++ [some v] := by
        rw [List.append_assoc]

theorem cellIdx_cons_pos (lbl : String) (x : Option CV) (t : List (Option CV))
    (hx : x = some (.s lbl)) : cellIdx lbl (x :: t) = some 0 := by
  simp [cellIdx, hx]

theorem cellIdx_cons_neg (lbl : String) (x : Option CV) (t : List (Option CV))
    (hx : x ≠ some (.s lbl)) :
    cellIdx lbl (x :: t) = (cellIdx lbl t).map (· + 1) := by
  simp [cellIdx, hx]

theorem cellIdx_replicate_append (lbl : String) (n : Nat) (t : List (Option CV)) :
    cellIdx lbl (List.replicate n none ++ t) = (cellIdx lbl t).map (· + n) := by
  induction n with
  | zero =>
      simp only [List.replicate_zero, List.nil_append]
      cases h : cellIdx lbl t <;> simp [h]
  | succ k ih =>
      rw [List.replicate_succ, List.cons_append,
        cellIdx_cons_neg lbl none _ (by simp), ih, Option.map_map]
      cases h : cellIdx lbl t <;> simp [h]

theorem cellIdx_lt (lbl : String) :
    ∀ (l : List (Option CV)) (i : Nat), cellIdx lbl l = some i → i < l.length := by
  intro l
  induction l with
  | nil => intro i h; simp [cellIdx] at h
  | cons x xs ih =>
      intro i h
      by_cases hx : x = some (CV.s lbl)
      · rw [cellIdx_cons_pos lbl x xs hx] at h
        simp at h
        simp [List.length_cons]
        omega
      · rw [cellIdx_cons_neg lbl x xs hx] at h
        rcases hj : cellIdx lbl xs with _ | j
        · rw [hj] at h; simp at h
        · rw [hj] at h
          simp at h
          have := ih j hj
          simp [List.length_cons]
          omega

theorem cellIdx_getD (lbl : String) :
    ∀ (l : List (Option CV)) (i : Nat),
      cellIdx lbl l = some i → l.getD i none = some (.s lbl) := by
  intro l
  induction l with
  | nil => intro i h; simp [cellIdx] at h
  | cons x xs ih =>
      intro i h
      by_cases hx : x = some (CV.s lbl)
      · rw [cellIdx_cons_pos lbl x xs hx] at h
        simp at h
        subst h
        simpa [List.getD] using hx
      · rw [cellIdx_cons_neg lbl x xs hx] at h
        rcases hj : cellIdx lbl xs with _ | j
        · rw [hj] at h; simp at h
        · rw [hj] at h
          simp at h
          subst h
          simpa [List.getD] using ih j hj

theorem cellIdx_none_countP (lbl : String) :
    ∀ l : List (Option CV), cellIdx lbl l = none →
      l.countP (fun c => c = some (.s lbl)) = 0 := by
  intro l
  induction l with
  | nil => intro _; rfl
  | cons x xs ih =>
      intro h
      by_cases hx : x = some (CV.s lbl)
      · rw [cellIdx_cons_pos lbl x xs hx] at h
        simp at h
      · rw [cellIdx_cons_neg lbl x xs hx] at h
        rcases hj : cellIdx lbl xs with _ | j
        · simp [List.countP_cons, hx, ih hj]
        · rw [hj] at h; simp at h

theorem lastHeaderIdx_bounds (hd : List (Option CV)) (lbl : String) (c : Nat)
    (hc : lastHeaderIdx hd lbl = some c) :
    1 ≤ c ∧ c ≤ hd.length ∧ getAt hd c = some (.s lbl) := by
  rcases hi : cellIdx lbl hd.reverse with _ | i
  · rw [lastHeaderIdx, hi] at hc
    simp at hc
  · rw [lastHeaderIdx, hi] at hc
    simp at hc
    have hlt : i < hd.length := by
      have := cellIdx_lt _ _ _ hi
      simpa using this
    have hget := cellIdx_getD _ _ _ hi
    refine ⟨by omega, by omega, ?_⟩
    subst hc
    unfold getAt
    have hrev : hd.reverse.getD i none = hd.getD (hd.length - 1 - i) none := by
      rw [List.getD_eq_getElem?_getD, List.getD_eq_getElem?_getD,
        List.getElem?_reverse (by simpa using hlt)]
    rw [show hd.length - i - 1 = hd.length - 1 - i by omega, ← hrev, hget]

theorem lastHeaderIdx_fresh (hd : List (Option CV)) (m : Nat) (lbl : String) :
    lastHeaderIdx (hd ++ List.replicate m none ++ [some (.s lbl)]) lbl
      = some (hd.length + m + 1) := by
  have hrev : (hd ++ List.replicate m (none : Option CV) ++ [some (CV.s lbl)]).reverse
      = some (CV.s lbl) :: (List.replicate m none ++ hd.reverse) := by
    simp [List.reverse_append]
  rw [lastHeaderIdx, hrev, cellIdx_cons_pos _ _ _ rfl]
  simp
  omega

theorem lastHeaderIdx_fresh_ne (hd : List (Option CV)) (m : Nat) (lbl lbl' : String)
    (hne : lbl' ≠ lbl) :
    lastHeaderIdx (hd ++ List.replicate m none ++ [some (.s lbl)]) lbl'
      = lastHeaderIdx hd lbl' := by
  have hrev : (hd ++ List.replicate m (none : Option CV) ++ [some (CV.s lbl)]).reverse
      = some (CV.s lbl) :: (List.replicate m none ++ hd.reverse) := by
    simp [List.reverse_append]
  have hneq : (some (CV.s lbl) : Option CV) ≠ some (CV.s lbl') := by
    simp
    exact fun e => hne e.symm
  rw [lastHeaderIdx, hrev, cellIdx_cons_neg _ _ _ hneq, cellIdx_replicate_append,
    lastHeaderIdx]
  rcases hci : cellIdx lbl' hd.reverse with _ | i
  · simp
  · have hlt : i < hd.length := by
      have := cellIdx_lt _ _ _ hci
      simpa using this
    simp
    omega

theorem countP_replicate_zero (m : Nat) (lbl : String) :
    (List.replicate m (none : Option CV)).countP (fun c => c = some (.s lbl)) = 0 := by
  rw [List.countP_eq_zero]
  intro a ha
  simp [List.eq_of_mem_replicate ha]

theorem countP_fresh (hd : List (Option CV)) (m : Nat) (lbl : String) :
    (hd ++ List.replicate m none ++ [some (CV.s lbl)]).countP
        (fun c => c = some (CV.s lbl))
      = hd.countP (fun c => c = some (CV.s lbl)) + 1 := by
  simp [List.countP_append, countP_replicate_zero, List.countP_cons]

theorem countP_fresh_ne (hd : List (Option CV)) (m : Nat) (lbl lbl' : String)
    (hne : lbl' ≠ lbl) :
    (hd ++ List.replicate m none ++ [some (CV.s lbl)]).countP
        (fun c => c = some (CV.s lbl'))
      = hd.countP (fun c => c = some (CV.s lbl')) := by
  have hneq : ¬ ((some (CV.s lbl) : Option CV) = some (CV.s lbl')) := by
    simp
    exact fun e => hne e.symm
  simp [List.countP_append, countP_replicate_zero, List.countP_cons, hneq]

theorem lastHeaderIdx_none_countP (hd : List (Option CV)) (lbl : String)
    (hn : lastHeaderIdx hd lbl = none) :
    hd.countP (fun c => c = some (.s lbl)) = 0 := by
  have hci : cellIdx lbl hd.reverse = none := by
    rcases hci : cellIdx lbl hd.reverse with _ | i
    · rfl
    · rw [lastHeaderIdx, hci] at hn
      simp at hn
  have := cellIdx_none_countP lbl hd.reverse hci
  rwa [List.countP_reverse] at this

theorem lastHeaderIdx_some_countP (hd : List (Option CV)) (lbl : String) (c : Nat)
    (hs : lastHeaderIdx hd lbl = some c) :
    1 ≤ hd.countP (fun cc => cc = some (.s lbl)) := by
  obtain ⟨h1, h2, h3⟩ := lastHeaderIdx_bounds hd lbl c hs
  have hmem : (some (CV.s lbl) : Option CV) ∈ hd := by
    unfold getAt at h3
    rcases hh : hd[c - 1]? with _ | x
    · rw [List.getD_eq_getElem?_getD, hh] at h3
      simp at h3
    · rw [List.getD_eq_getElem?_getD, hh] at h3
      simp at h3
      subst h3
      exact List.getElem?_mem hh
  have : 0 < hd.countP (fun cc => cc = some (.s lbl)) :=
    List.countP_pos_iff.mpr ⟨_, hmem, by simp⟩
  omega

theorem one_le_maxColumn (ws : Ws) : 1 ≤ ws.maxColumn := by
  unfold Ws.maxColumn
  omega

theorem header_le_maxColumn (ws : Ws) : ws.header.length ≤ ws.maxColumn := by
  unfold Ws.maxColumn
  omega

theorem maxColumn_setHeader_fresh (ws : Ws) (v : CV) :
    (setHeaderCell ws (ws.maxColumn + 1) v).maxColumn = ws.maxColumn + 1 := by
  unfold setHeaderCell Ws.maxColumn
  simp only [length_setAt]
  omega

theorem list_set_id {α : Type} : ∀ (l : List α) (i : Nat) (a : α),
    l[i]? = some a → l.set i a = l := by
  intro l
  induction l with
  | nil => intro i a h; simp at h
  | cons x xs ih =>
      intro i a h
      cases i with
      | zero =>
          simp at h
          simp [List.set, h]
      | succ n =>
          simp at h
          simp [List.set]
          exact ih n a h

theorem setAt_id (row : List (Option CV)) (c : Nat) (v : CV) (hc : 1 ≤ c)
    (hv : getAt row c = some v) : setAt row c v = row := by
  have hlt : c - 1 < row.length := by
    by_contra hcon
    have hnone : row[c - 1]? = none := List.getElem?_eq_none (by omega)
    rw [getAt, List.getD_eq_getElem?_getD, hnone] at hv
    simp at hv
  have hpad : padTo row c = row := by
    unfold padTo
    rw [show c - row.length = 0 by omega]
    simp
  have hsv : row[c - 1]? = some (some v) := by
    rcases hh : row[c - 1]? with _ | x
    · rw [getAt, List.getD_eq_getElem?_getD, hh] at hv
      simp at hv
    · rw [getAt, List.getD_eq_getElem?_getD, hh] at hv
      simp at hv
      rw [hv]
  unfold setAt
  rw [hpad]
  exact list_set_id row (c - 1) (some v) hsv

theorem findRowAux_none (today : Date) :
    ∀ (rows : List (List (Option CV))) (r : Nat),
      (∀ row ∈ rows, parseExcelDateCV (getAt row 1) ≠ some today) →
      findRowAux today r rows = none := by
  intro rows
  induction rows with
  | nil => intro r _; rfl
  | cons row rest ih =>
      intro r hall
      unfold findRowAux
      rw [if_neg (hall row (List.mem_cons_self row rest))]
      exact ih (r + 1) fun x hx => hall x (List.mem_cons_of_mem row hx)

theorem findRowAux_concat (today : Date) :
    ∀ (rows : List (List (Option CV))) (x : List (Option CV)) (r : Nat),
      (∀ row ∈ rows, parseExcelDateCV (getAt row 1) ≠ some today) →
      parseExcelDateCV (getAt x 1) = some today →
      findRowAux today r (rows ++ [x]) = some (r + rows.length) := by
  intro rows
  induction rows with
  | nil =>
      intro x r _ hx
      rw [List.nil_append]
      unfold findRowAux
      rw [if_pos hx]
      simp
  | cons row rest ih =>
      intro x r hall hx
      rw [List.cons_append]
      unfold findRowAux
      rw [if_neg (hall row (List.mem_cons_self row rest))]
      rw [ih x (r + 1) (fun y hy => hall y (List.mem_cons_of_mem row hy)) hx]
      simp [List.length_cons]
      omega

theorem getOrCreate_stable (ws : Ws) (c100 c50 : Nat)
    (h1 : lastHeaderIdx ws.header "Benuta 100" = some c100)
    (h2 : lastHeaderIdx ws.header "Benuta 50" = some c50) :
    getOrCreateHeaders ws = (c100, c50, ws) := by
  unfold getOrCreateHeaders
  rw [h1, h2]

/-- Everything the idempotence argument needs to know about
`_get_or_create_headers`. -/
theorem getOrCreate_spec (ws : Ws) (c100 c50 : Nat) (wsH : Ws)
    (hG : getOrCreateHeaders ws = (c100, c50, wsH))
    (hdr : getAt ws.header 1 = some (.s "Datum")) :
    wsH.rows = ws.rows
    ∧ 2 ≤ c100 ∧ 2 ≤ c50 ∧ c100 ≠ c50
    ∧ lastHeaderIdx wsH.header "Benuta 100" = some c100
    ∧ lastHeaderIdx wsH.header "Benuta 50" = some c50
    ∧ getAt wsH.header 1 = some (.s "Datum")
    ∧ wsH.header.countP (fun c => c = some (CV.s "Benuta 100"))
        = max (ws.header.countP (fun c => c = some (CV.s "Benuta 100"))) 1
    ∧ wsH.header.countP (fun c => c = some (CV.s "Benuta 50"))
        = max (ws.header.countP (fun c => c = some (CV.s "Benuta 50"))) 1 := by
  have hM1 : 1 ≤ ws.maxColumn := one_le_maxColumn ws
  have hHM : ws.header.length ≤ ws.maxColumn := header_le_maxColumn ws
  have two_le : ∀ (lbl : String) (c : Nat), lastHeaderIdx ws.header lbl = some c →
      lbl ≠ "Datum" → 2 ≤ c := by
    intro lbl c hs hne
    obtain ⟨h1, _, h3⟩ := lastHeaderIdx_bounds _ _ _ hs
    by_contra hcon
    have hc1 : c = 1 := by omega
    subst hc1
    rw [hdr] at h3
    simp at h3
    exact hne h3.symm
  rcases h100 : lastHeaderIdx ws.header "Benuta 100" with _ | j <;>
    rcases h50 : lastHeaderIdx ws.header "Benuta 50" with _ | k
  · -- both missing: create both, B50 right after B100
    have hmc : (setHeaderCell ws (ws.maxColumn + 1) (.s "Benuta 100")).maxColumn
        = ws.maxColumn + 1 := maxColumn_setHeader_fresh ws _
    have hga : getAt (setHeaderCell ws (ws.maxColumn + 1) (.s "Benuta 100")).header
        (ws.maxColumn + 1) = some (.s "Benuta 100") :=
      getAt_setAt_self _ _ _ (by omega)
    have hE : getOrCreateHeaders ws
        = (ws.maxColumn + 1, ws.maxColumn + 1 + 1,
           setHeaderCell (setHeaderCell ws (ws.maxColumn + 1) (.s "Benuta 100"))
             (ws.maxColumn + 1 + 1) (.s "Benuta 50")) := by
      simp only [getOrCreateHeaders, h100, h50, if_pos hM1]
      rw [if_pos (by simp [hmc, hga])]
    rw [hE] at hG
    obtain ⟨e1, e2, e3⟩ : ws.maxColumn + 1 = c100 ∧ ws.maxColumn + 1 + 1 = c50
        ∧ setHeaderCell (setHeaderCell ws (ws.maxColumn + 1) (.s "Benuta 100"))
            (ws.maxColumn + 1 + 1) (.s "Benuta 50") = wsH := by
      simpa [Prod.ext_iff] using hG
    subst e1; subst e2; subst e3
    have hf1 : setAt ws.header (ws.maxColumn + 1) (CV.s "Benuta 100")
        = ws.header ++ List.replicate (ws.maxColumn + 1 - 1 - ws.header.length) none
            ++ [some (CV.s "Benuta 100")] :=
      setAt_fresh _ _ _ (by omega)
    have hl1 : (setAt ws.header (ws.maxColumn + 1) (CV.s "Benuta 100")).length
        = ws.maxColumn + 1 := by
      rw [length_setAt]; omega
    have hf2 : setAt (setAt ws.header (ws.maxColumn + 1) (CV.s "Benuta 100"))
          (ws.maxColumn + 1 + 1) (CV.s "Benuta 50")
        = setAt ws.header (ws.maxColumn + 1) (CV.s "Benuta 100")
            ++ List.replicate (ws.maxColumn + 1 + 1 - 1
                - (setAt ws.header (ws.maxColumn + 1) (CV.s "Benuta 100")).length) none
            ++ [some (CV.s "Benuta 50")] :=
      setAt_fresh _ _ _ (by omega)
    refine ⟨rfl, by omega, by omega, by omega, ?_, ?_, ?_, ?_, ?_⟩
    · show lastHeaderIdx (setAt (setAt ws.header _ _) _ _) "Benuta 100" = _
      rw [hf2, lastHeaderIdx_fresh_ne _ _ _ _ (by decide), hf1, lastHeaderIdx_fresh]
      simp
      omega
    · show lastHeaderIdx (setAt (setAt ws.header _ _) _ _) "Benuta 50" = _
      rw [hf2, lastHeaderIdx_fresh, hl1]
      simp
    · show getAt (setAt (setAt ws.header _ _) _ _) 1 = _
      rw [getAt_setAt_ne _ _ _ _ (by omega) (by omega) (by omega),
        getAt_setAt_ne _ _ _ _ (by omega) (by omega) (by omega)]
      exact hdr
    · show (setAt (setAt ws.header _ _) _ _).countP _ = _
      rw [hf2, countP_fresh_ne _ _ _ _ (by decide), hf1, countP_fresh,
        lastHeaderIdx_none_countP _ _ h100]
      simp
    · show (setAt (setAt ws.header _ _) _ _).countP _ = _
      rw [hf2, countP_fresh, hf1, countP_fresh_ne _ _ _ _ (by decide),
        lastHeaderIdx_none_countP _ _ h50]
      simp
  · -- B100 missing, B50 present
    have hE : getOrCreateHeaders ws
        = (ws.maxColumn + 1, k, setHeaderCell ws (ws.maxColumn + 1) (.s "Benuta 100")) := by
      simp only [getOrCreateHeaders, h100, h50, if_pos hM1]
    rw [hE] at hG
    obtain ⟨e1, e2, e3⟩ : ws.maxColumn + 1 = c100 ∧ k = c50
        ∧ setHeaderCell ws (ws.maxColumn + 1) (.s "Benuta 100") = wsH := by
      simpa [Prod.ext_iff] using hG
    subst e1; subst e2; subst e3
    have hkb := lastHeaderIdx_bounds _ _ _ h50
    have hf1 : setAt ws.header (ws.maxColumn + 1) (CV.s "Benuta 100")
        = ws.header ++ List.replicate (ws.maxColumn + 1 - 1 - ws.header.length) none
            ++ [some (CV.s "Benuta 100")] :=
      setAt_fresh _ _ _ (by omega)
    refine ⟨rfl, by omega, two_le _ _ h50 (by decide), by omega, ?_, ?_, ?_, ?_, ?_⟩
    · show lastHeaderIdx (setAt ws.header _ _) "Benuta 100" = _
      rw [hf1, lastHeaderIdx_fresh]
      simp
      omega
    · show lastHeaderIdx (setAt ws.header _ _) "Benuta 50" = _
      rw [hf1, lastHeaderIdx_fresh_ne _ _ _ _ (by decide)]
      exact h50
    · show getAt (setAt ws.header _ _) 1 = _
      rw [getAt_setAt_ne _ _ _ _ (by omega) (by omega) (by omega)]
      exact hdr
    · show (setAt ws.header _ _).countP _ = _
      rw [hf1, countP_fresh, lastHeaderIdx_none_countP _ _ h100]
      simp
    · show (setAt ws.header _ _).countP _ = _
      rw [hf1, countP_fresh_ne _ _ _ _ (by decide)]
      have := lastHeaderIdx_some_countP _ _ _ h50
      omega
  · -- B100 present, B50 missing
    have hj3 := (lastHeaderIdx_bounds _ _ _ h100).2.2
    have hjb := lastHeaderIdx_bounds _ _ _ h100
    have hE : getOrCreateHeaders ws
        = (j, ws.maxColumn + 1, setHeaderCell ws (ws.maxColumn + 1) (.s "Benuta 50")) := by
      simp only [getOrCreateHeaders, h100, h50]
      by_cases hjm : j = ws.maxColumn
      · rw [if_pos (by subst hjm; simp [hj3])]
        rw [hjm]
      · rw [if_neg (by simp [hjm])]
    rw [hE] at hG
    obtain ⟨e1, e2, e3⟩ : j = c100 ∧ ws.maxColumn + 1 = c50
        ∧ setHeaderCell ws (ws.maxColumn + 1) (.s "Benuta 50") = wsH := by
      simpa [Prod.ext_iff] using hG
    subst e1; subst e2; subst e3
    have hf1 : setAt ws.header (ws.maxColumn + 1) (CV.s "Benuta 50")
        = ws.header ++ List.replicate (ws.maxColumn + 1 - 1 - ws.header.length) none
            ++ [some (CV.s "Benuta 50")] :=
      setAt_fresh _ _ _ (by omega)
    refine ⟨rfl, two_le _ _ h100 (by decide), by omega, ?_, ?_, ?_, ?_, ?_, ?_⟩
    · have := hjb.2.1
      omega
    · show lastHeaderIdx (setAt ws.header _ _) "Benuta 100" = _
      rw [hf1, lastHeaderIdx_fresh_ne _ _ _ _ (by decide)]
      exact h100
    · show lastHeaderIdx (setAt ws.header _ _) "Benuta 50" = _
      rw [hf1, lastHeaderIdx_fresh]
      simp
      omega
    · show getAt (setAt ws.header _ _) 1 = _
      rw [getAt_setAt_ne _ _ _ _ (by omega) (by omega) (by omega)]
      exact hdr
    · show (setAt ws.header _ _).countP _ = _
      rw [hf1, countP_fresh_ne _ _ _ _ (by decide)]
      have := lastHeaderIdx_some_countP _ _ _ h100
      omega
    · show (setAt ws.header _ _).countP _ = _
      rw [hf1, countP_fresh, lastHeaderIdx_none_countP _ _ h50]
      simp
  · -- both present: nothing changes
    rw [getOrCreate_stable ws j k h100 h50] at hG
    obtain ⟨e1, e2, e3⟩ : j = c100 ∧ k = c50 ∧ ws = wsH := by
      simpa [Prod.ext_iff] using hG
    subst e1; subst e2; subst e3
    have hb1 := (lastHeaderIdx_bounds _ _ _ h100).2.2
    have hb2 := (lastHeaderIdx_bounds _ _ _ h50).2.2
    refine ⟨rfl, two_le _ _ h100 (by decide), two_le _ _ h50 (by decide), ?_,
      h100, h50, hdr, ?_, ?_⟩
    · intro heq
      rw [heq, hb2] at hb1
      simp at hb1
    · have := lastHeaderIdx_some_countP _ _ _ h100
      omega
    · have := lastHeaderIdx_some_countP _ _ _ h50
      omega

theorem setDataCell_concat (H : List (Option CV)) (rows : List (List (Option CV)))
    (x : List (Option CV)) (c : Nat) (v : CV) :
    setDataCell ⟨H, rows ++ [x]⟩ rows.length c v = ⟨H, rows ++ [setAt x c v]⟩ := by
  unfold setDataCell
  rw [dif_pos (by simp)]
  have hget : ∀ (h : rows.length < (Ws.mk H (rows ++ [x])).rows.length),
      (Ws.mk H (rows ++ [x])).rows.get ⟨rows.length, h⟩ = x := by
    intro h
    simp [List.get_eq_getElem, List.getElem_concat_length]
  rw [hget, set_concat]

theorem writeCells_getAt1 (ts : String) (c100 c50 : Nat) (a100 a50 : Option Int)
    (hc100 : 2 ≤ c100) (hc50 : 2 ≤ c50) :
    getAt (writeCells (setAt [] 1 (.s ts)) c100 c50 a100 a50) 1 = some (.s ts) := by
  have hbase : getAt (setAt ([] : List (Option CV)) 1 (.s ts)) 1 = some (.s ts) :=
    getAt_setAt_self _ _ _ (by omega)
  unfold writeCells
  cases a100 <;> cases a50 <;>
    simp only [] <;>
    (repeat rw [getAt_setAt_ne _ _ _ _ (by omega) (by omega) (by omega)]) <;>
    exact hbase

theorem writeCells_get100 (row : List (Option CV)) (c100 c50 : Nat) (a : Int)
    (a50 : Option Int) (hc100 : 2 ≤ c100) (hc50 : 2 ≤ c50) (hne : c100 ≠ c50) :
    getAt (writeCells row c100 c50 (some a) a50) c100 = some (.i a) := by
  unfold writeCells
  cases a50
  · exact getAt_setAt_self _ _ _ (by omega)
  · rw [getAt_setAt_ne _ _ _ _ (by omega) (by omega) hne]
    exact getAt_setAt_self _ _ _ (by omega)

theorem writeCells_get50 (row : List (Option CV)) (c100 c50 : Nat)
    (a100 : Option Int) (b : Int) (hc50 : 2 ≤ c50) :
    getAt (writeCells row c100 c50 a100 (some b)) c50 = some (.i b) := by
  unfold writeCells
  cases a100 <;> exact getAt_setAt_self _ _ _ (by omega)

/-- Evaluating `append_to_excel` when no row for today exists yet: the new
row is appended and the supplied cells written into it. -/
theorem append_eval (ws : Ws) (today : Date) (ts : String) (a100 a50 : Option Int)
    (c100 c50 : Nat) (wsH : Ws)
    (hG : getOrCreateHeaders ws = (c100, c50, wsH))
    (hrows : wsH.rows = ws.rows)
    (hfind : findRowForToday wsH today = none) :
    append_to_excel ws today ts a100 a50
      = ⟨wsH.header, ws.rows ++ [writeCells (setAt [] 1 (.s ts)) c100 c50 a100 a50]⟩ := by
  have hsub : wsH.maxRow + 1 - 2 = ws.rows.length := by
    unfold Ws.maxRow
    rw [hrows]
    omega
  have hbase : setDataCell wsH (ws.rows.length) 1 (.s ts)
      = ⟨wsH.header, ws.rows ++ [setAt [] 1 (.s ts)]⟩ := by
    unfold setDataCell
    rw [dif_neg (by rw [hrows]; omega)]
    rw [hrows, Nat.sub_self]
    simp
  unfold append_to_excel
  rw [hG]
  simp only [hfind]
  rw [hsub, hbase]
  rcases a100 with _ | a <;> rcases a50 with _ | b <;>
    simp only [writeCells] <;>
    (rw [setDataCell_concat]; try rw [setDataCell_concat])

/-- Evaluating `append_to_excel` when the row for today is the one appended
by a previous run carrying the same values: nothing changes. -/
theorem append_eval_found (ws1 : Ws) (today : Date) (ts : String) (a100 a50 : Option Int)
    (c100 c50 : Nat) (rows0 : List (List (Option CV))) (rowF : List (Option CV))
    (hG : getOrCreateHeaders ws1 = (c100, c50, ws1))
    (hrows : ws1.rows = rows0 ++ [rowF])
    (hfind : findRowForToday ws1 today = some (2 + rows0.length))
    (h100 : ∀ a, a100 = some a → getAt rowF c100 = some (.i a))
    (h50 : ∀ b, a50 = some b → getAt rowF c50 = some (.i b))
    (hc100 : 2 ≤ c100) (hc50 : 2 ≤ c50) :
    append_to_excel ws1 today ts a100 a50 = ws1 := by
  have hsub : 2 + rows0.length - 2 = rows0.length := by omega
  have hW : ws1 = ⟨ws1.header, rows0 ++ [rowF]⟩ := by
    cases ws1
    simp at hrows ⊢
    exact hrows
  have hwrite : ∀ (c : Nat) (v : CV), 2 ≤ c → setAt rowF c v = rowF →
      setDataCell ws1 rows0.length c v = ws1 := by
    intro c v hc hid
    rw [hW, setDataCell_concat, hid]
  unfold append_to_excel
  rw [hG]
  simp only [hfind]
  rw [hsub]
  rcases ha : a100 with _ | a <;> rcases hb : a50 with _ | b
  · rfl
  · exact hwrite c50 (.i b) hc50 (setAt_id _ _ _ (by omega) (h50 b hb))
  · exact hwrite c100 (.i a) hc100 (setAt_id _ _ _ (by omega) (h100 a ha))
  · show setDataCell (setDataCell ws1 rows0.length c100 (CV.i a)) rows0.length c50 (CV.i b)
        = ws1
    rw [hwrite c100 (.i a) hc100 (setAt_id _ _ _ (by omega) (h100 a ha))]
    exact hwrite c50 (.i b) hc50 (setAt_id _ _ _ (by omega) (h50 b hb))

/-- C4 (confirmed): the spreadsheet upsert is idempotent.  Starting from any
sheet whose first header cell is "Datum" and that has no row for today's
date, running `append_to_excel` twice with the same date key and values
changes nothing the second time, leaves exactly one row for that date, and
leaves exactly one "Benuta 100" / "Benuta 50" column (no duplicates
created). -/
theorem C4_upsert_idempotent (ws : Ws) (today : Date) (ts : String)
    (a100 a50 : Option Int)
    (hdr : getAt ws.header 1 = some (.s "Datum"))
    (hts : parseExcelDate ts = some today)
    (hnone : ∀ row ∈ ws.rows, parseExcelDateCV (getAt row 1) ≠ some today) :
    append_to_excel (append_to_excel ws today ts a100 a50) today ts a100 a50
      = append_to_excel ws today ts a100 a50
    ∧ (append_to_excel ws today ts a100 a50).rows.countP
        (fun row => parseExcelDateCV (getAt row 1) = some today) = 1
    ∧ (append_to_excel ws today ts a100 a50).header.countP
        (fun c => c = some (CV.s "Benuta 100"))
        = max (ws.header.countP (fun c => c = some (CV.s "Benuta 100"))) 1
    ∧ (append_to_excel ws today ts a100 a50).header.countP
        (fun c => c = some (CV.s "Benuta 50"))
        = max (ws.header.countP (fun c => c = some (CV.s "Benuta 50"))) 1 := by
  rcases hG : getOrCreateHeaders ws with ⟨c100, c50, wsH⟩
  obtain ⟨hrows, hc100, hc50, hne, hL100, hL50, hdrH, hcnt100, hcnt50⟩ :=
    getOrCreate_spec ws c100 c50 wsH hG hdr
  have hfind1 : findRowForToday wsH today = none := by
    unfold findRowForToday
    rw [hrows]
    exact findRowAux_none today ws.rows 2 hnone
  have h1 := append_eval ws today ts a100 a50 c100 c50 wsH hG hrows hfind1
  have hmatch : parseExcelDateCV
      (getAt (writeCells (setAt [] 1 (.s ts)) c100 c50 a100 a50) 1) = some today := by
    rw [writeCells_getAt1 ts c100 c50 a100 a50 hc100 hc50]
    simpa [parseExcelDateCV] using hts
  have hcountrows : (ws.rows ++ [writeCells (setAt [] 1 (.s ts)) c100 c50 a100 a50]).countP
      (fun row => parseExcelDateCV (getAt row 1) = some today) = 1 := by
    rw [List.countP_append]
    have h0 : ws.rows.countP
        (fun row => parseExcelDateCV (getAt row 1) = some today) = 0 := by
      rw [List.countP_eq_zero]
      intro r hr
      simpa using hnone r hr
    rw [h0]
    simp [List.countP_cons, hmatch]
  have hG2 : getOrCreateHeaders
      ⟨wsH.header, ws.rows ++ [writeCells (setAt [] 1 (.s ts)) c100 c50 a100 a50]⟩
      = (c100, c50,
         ⟨wsH.header, ws.rows ++ [writeCells (setAt [] 1 (.s ts)) c100 c50 a100 a50]⟩) :=
    getOrCreate_stable _ c100 c50 hL100 hL50
  have hfind2 : findRowForToday
      ⟨wsH.header, ws.rows ++ [writeCells (setAt [] 1 (.s ts)) c100 c50 a100 a50]⟩ today
      = some (2 + ws.rows.length) := by
    unfold findRowForToday
    exact findRowAux_concat today ws.rows _ 2 hnone hmatch
  have h2 : append_to_excel
      ⟨wsH.header, ws.rows ++ [writeCells (setAt [] 1 (.s ts)) c100 c50 a100 a50]⟩
      today ts a100 a50
      = ⟨wsH.header, ws.rows ++ [writeCells (setAt [] 1 (.s ts)) c100 c50 a100 a50]⟩ := by
    apply append_eval_found _ today ts a100 a50 c100 c50 ws.rows _ hG2 rfl hfind2
      ?_ ?_ hc100 hc50
    · intro a ha
      rw [ha]
      exact writeCells_get100 _ c100 c50 a a50 hc100 hc50 hne
    · intro b hb
      rw [hb]
      exact writeCells_get50 _ c100 c50 a100 b hc50
  refine ⟨?_, ?_, ?_, ?_⟩
  · rw [h1]
    exact h2
  · rw [h1]
    exact hcountrows
  · rw [h1]
    exact hcnt100
  · rw [h1]
    exact hcnt50

theorem C4_witness :
    append_to_excel
        (append_to_excel ⟨[some (.s "Datum")], []⟩ ⟨2025, 10, 12⟩ "2025-10-12 08:00"
          (some 9000) (some 8000))
        ⟨2025, 10, 12⟩ "2025-10-12 08:00" (some 9000) (some 8000)
      = append_to_excel ⟨[some (.s "Datum")], []⟩ ⟨2025, 10, 12⟩ "2025-10-12 08:00"
          (some 9000) (some 8000)
    ∧ (append_to_excel ⟨[some (.s "Datum")], []⟩ ⟨2025, 10, 12⟩ "2025-10-12 08:00"
          (some 9000) (some 8000)).rows.countP
        (fun row => parseExcelDateCV (getAt row 1) = some ⟨2025, 10, 12⟩) = 1
    ∧ (append_to_excel ⟨[some (.s "Datum")], []⟩ ⟨2025, 10, 12⟩ "2025-10-12 08:00"
          (some 9000) (some 8000)).header.countP
        (fun c => c = some (CV.s "Benuta 100"))
        = max (([some (CV.s "Datum")] : List (Option CV)).countP
            (fun c => c = some (CV.s "Benuta 100"))) 1
    ∧ (append_to_excel ⟨[some (.s "Datum")], []⟩ ⟨2025, 10, 12⟩ "2025-10-12 08:00"
          (some 9000) (some 8000)).header.countP
        (fun c => c = some (CV.s "Benuta 50"))
        = max (([some (CV.s "Datum")] : List (Option CV)).countP
            (fun c => c = some (CV.s "Benuta 50"))) 1 :=
  C4_upsert_idempotent ⟨[some (.s "Datum")], []⟩ ⟨2025, 10, 12⟩ "2025-10-12 08:00"
    (some 9000) (some 8000) (by decide) (by decide) (by simp)

/-- C9 (confirmed): when either expected label ("Konverteringar" or
"Varumärken") has no match in the fetched page text, `parse_numbers` raises,
and the script aborts with exit code 1 leaving the sheet untouched — no
partial result is written. -/
theorem C9_missing_label_aborts :
    ∀ (text datum : String) (ws : Ws),
      labelSearch "Konverteringar".data text.data = none
        ∨ labelSearch "Varumärken".data text.data = none →
      (∃ e, parse_numbers text = .error e) ∧ statsMain text datum ws = (1, ws) := by
  intro text datum ws h
  have labelVal_eq : ∀ (lbl : String) (g : List Char),
      labelSearch lbl.data text.data = some g →
      labelVal lbl text
        = (match groupVal g with
           | .error e => .error e
           | .ok v => .ok (some v)) := by
    intro lbl g hg
    unfold labelVal
    rw [hg]
  have herr : ∃ e, parse_numbers text = .error e := by
    rcases h with h | h
    · have hK : labelVal "Konverteringar" text = .ok none := by
        unfold labelVal; rw [h]
      rcases hv : labelSearch "Varumärken".data text.data with _ | g
      · have hV : labelVal "Varumärken" text = .ok none := by
          unfold labelVal; rw [hv]
        exact ⟨_, by unfold parse_numbers; rw [hK, hV]⟩
      · rcases hg : groupVal g with e | v
        · have hV : labelVal "Varumärken" text = .error e := by
            rw [labelVal_eq _ _ hv, hg]
          exact ⟨e, by unfold parse_numbers; rw [hK, hV]⟩
        · have hV : labelVal "Varumärken" text = .ok (some v) := by
            rw [labelVal_eq _ _ hv, hg]
          exact ⟨_, by unfold parse_numbers; rw [hK, hV]⟩
    · have hV : labelVal "Varumärken" text = .ok none := by
        unfold labelVal; rw [h]
      rcases hk : labelSearch "Konverteringar".data text.data with _ | g
      · have hK : labelVal "Konverteringar" text = .ok none := by
          unfold labelVal; rw [hk]
        exact ⟨_, by unfold parse_numbers; rw [hK, hV]⟩
      · rcases hg : groupVal g with e | v
        · have hK : labelVal "Konverteringar" text = .error e := by
            rw [labelVal_eq _ _ hk, hg]
          exact ⟨e, by unfold parse_numbers; rw [hK]⟩
        · have hK : labelVal "Konverteringar" text = .ok (some v) := by
            rw [labelVal_eq _ _ hk, hg]
          exact ⟨_, by unfold parse_numbers; rw [hK, hV]⟩
  obtain ⟨e, he⟩ := herr
  refine ⟨⟨e, he⟩, ?_⟩
  unfold statsMain
  rw [he]

theorem C9_witness :
    (∃ e, parse_numbers "nothing here" = .error e)
    ∧ statsMain "nothing here" "2025-10-12 08:00"
        ⟨[some (.s "Datum")], []⟩ = (1, ⟨[some (.s "Datum")], []⟩) := by
  exact C9_missing_label_aborts "nothing here" "2025-10-12 08:00"
    ⟨[some (.s "Datum")], []⟩ (Or.inl (by decide))

/-- C10 (confirmed): if **any** existing data row (not only the last one) has
a first cell equal to the new row's "Datum" string, `append_row_xlsx` returns
`None` with the sheet completely unchanged — nothing is appended and nothing
is saved. -/
theorem C10_duplicate_row_atomic :
    ∀ (ws : Ws) (datum : String) (conv brands : Int),
      (ws.rows.any fun r => getAt r 1 = some (.s datum)) = true →
      append_row_xlsx ws datum conv brands = (none, ws) := by
  intro ws datum conv brands h
  unfold append_row_xlsx
  rw [if_pos h]

theorem C10_witness :
    append_row_xlsx
      ⟨[some (.s "Datum"), some (.s "Konverteringar"), some (.s "Varumärken"), some (.s "Diff")],
       [[some (.s "2025-10-11 08:00"), some (.i 5), some (.i 2), none],
        [some (.s "2025-10-12 08:00"), some (.i 7), some (.i 3), some (.i 2)]]⟩
      "2025-10-11 08:00" 9 4
    = (none,
       ⟨[some (.s "Datum"), some (.s "Konverteringar"), some (.s "Varumärken"), some (.s "Diff")],
        [[some (.s "2025-10-11 08:00"), some (.i 5), some (.i 2), none],
         [some (.s "2025-10-12 08:00"), some (.i 7), some (.i 3), some (.i 2)]]⟩) := by
  exact C10_duplicate_row_atomic _ "2025-10-11 08:00" 9 4 (by decide)

end Kodning
